import Mathlib

/-!
Verification of the `simple_swim_template` desktop: a shallow embedding of
`src/lib.rs` (scheduler, window state machine, output sink) and
`src/buffer.rs` (text editor) together with theorems settling the frozen
claims about the program.

Machine integers (`usize`) are modelled as `Nat`; the only place the word
size matters is the `usize::MAX` sentinel used by `min_vruntime`, modelled
as `USIZE_MAX = 2^64 - 1`.  Fallible paths (`todo!()` panics) are modelled
with `Option`.  External collaborators (the interpreter, the filesystem,
the keyboard decoder's `is_drawable`) are opaque in the source and are
modelled as parameters collected in an `Env` structure; the framebuffer
driver's `plot`/`peek` are modelled as updates to a function
`Nat → Nat → Char × ColorCode`.
-/

namespace Swim

/-! ## Constants from `src/lib.rs` -/

def TASK_MANAGER_WIDTH : Nat := 10
def WIN_REGION_WIDTH : Nat := 80 - TASK_MANAGER_WIDTH
def WIN_WIDTH : Nat := (WIN_REGION_WIDTH - 4) / 2
def DOCUMENT_LENGTH : Nat := 40
def SCHED_LATENCY : Nat := 24
def USIZE_MAX : Nat := 2 ^ 64 - 1

/-- The NUL sentinel character (`0u8 as char`). -/
def nulc : Char := Char.ofNat 0

/-! ## Framebuffer model (`pluggable_interrupt_os::vga_buffer`) -/

inductive Color where
  | black
  | lightCyan
  | green
deriving DecidableEq

structure ColorCode where
  fg : Color
  bg : Color
deriving DecidableEq

def ColorCode.mk' (f b : Color) : ColorCode := ⟨f, b⟩

abbrev Cell := Char × ColorCode

/-- The 80×25 character framebuffer, as a function from (column, row). -/
abbrev FB := Nat → Nat → Cell

/-- `plot(c, x, y, color)`: write one cell. -/
def plot (c : Char) (x y : Nat) (color : ColorCode) (fb : FB) : FB :=
  fun a b => if a = x ∧ b = y then (c, color) else fb a b

/-- `peek(x, y)`: read one cell. -/
def peek (fb : FB) (x y : Nat) : Cell := fb x y

def lcCode : ColorCode := ⟨Color.lightCyan, Color.black⟩
def blackCode : ColorCode := ⟨Color.black, Color.black⟩

/-! ## List-of-rows document helpers -/

/-- Read `document[r][c]` (NUL when out of bounds; all source accesses are
in bounds, which the theorems carry as hypotheses). -/
def getC (d : List (List Char)) (r c : Nat) : Char :=
  (d.getD r []).getD c nulc

/-- Write `document[r][c] = ch`. -/
def setC (d : List (List Char)) (r c : Nat) (ch : Char) : List (List Char) :=
  d.set r ((d.getD r []).set c ch)

/-! ## `TextEditor` (src/buffer.rs)

The Rust type is generic over `LINE_WIDTH` and `DOCUMENT_LENGTH`; every
method body refers to them only through the fields `window_size_x`
(= LINE_WIDTH) and `window_size_y * 4` (= DOCUMENT_LENGTH), which is what
the embedding uses. -/

structure TextEditor where
  document : List (List Char)
  cursor_col : Nat
  cursor_row : Nat
  target_col : Nat
  focus_x : Nat
  focus_y : Nat
  window_size_x : Nat
  window_size_y : Nat
  focused : Bool
deriving DecidableEq

/-- The `for i in 0..window_size_x { if doc[row][i] == 0 { cursor_col = i; break } }`
idiom shared by `backspace_char` and the cursor motions: move the cursor
to the first NUL of its row (unchanged when the row has none). -/
def TextEditor.seekCol (e : TextEditor) : TextEditor :=
  match (List.range e.window_size_x).find?
      (fun i => getC e.document e.cursor_row i == nulc) with
  | some i => { e with cursor_col := i }
  | none => e

def TextEditor.push_char (e : TextEditor) (c : Char) : TextEditor :=
  let e := { e with document := setC e.document e.cursor_row e.cursor_col c }
  let e :=
    if e.cursor_col < e.window_size_x - 1 then
      { e with cursor_col := e.cursor_col + 1 }
    else if e.cursor_row < e.window_size_y * 4 - 1 then
      { e with cursor_row := e.cursor_row + 1, cursor_col := 0 }
    else e
  { e with target_col := e.cursor_col }

/-- Body of `shift`'s `for i in cursor_col..window_size_x` loop, iterating
over the remaining index list. -/
def shiftList (d : List (List Char)) (row wsx : Nat) : List Nat → List (List Char)
  | [] => d
  | i :: rest =>
    if getC d row i = nulc then d
    else if i + 1 = wsx then shiftList (setC d row i nulc) row wsx rest
    else shiftList (setC d row i (getC d row (i + 1))) row wsx rest

def TextEditor.shift (e : TextEditor) : TextEditor :=
  { e with
    document := shiftList e.document e.cursor_row e.window_size_x
      (List.range' e.cursor_col (e.window_size_x - e.cursor_col)) }

def TextEditor.backspace_char (e : TextEditor) : TextEditor :=
  let e :=
    if e.cursor_col ≠ 0 ∨ e.cursor_row ≠ 0 then
      let e :=
        if e.cursor_col > 0 then { e with cursor_col := e.cursor_col - 1 }
        else if e.cursor_row > 0 then
          { e with cursor_row := e.cursor_row - 1, cursor_col := e.window_size_x - 1 }
        else e
      let e :=
        if getC e.document e.cursor_row e.cursor_col = nulc then e.seekCol else e
      e.shift
    else e
  { e with target_col := e.cursor_col }

/-- Body of `newline`'s `for i in window_size_y*4..cursor_row` loop. -/
def rowCopyDown (d : List (List Char)) : List Nat → List (List Char)
  | [] => d
  | i :: rest => rowCopyDown (d.set i (d.getD (i - 1) [])) rest

def TextEditor.newline (e : TextEditor) : TextEditor :=
  if e.cursor_row + 1 ≠ e.window_size_y * 4 then
    let e := { e with cursor_row := e.cursor_row + 1, cursor_col := 0 }
    let d := rowCopyDown e.document
      (List.range' (e.window_size_y * 4) (e.cursor_row - e.window_size_y * 4))
    { e with document := d.set e.cursor_row (List.replicate e.window_size_x nulc) }
  else e

def TextEditor.move_cursor_up (e : TextEditor) : TextEditor :=
  if e.cursor_row > 0 then
    let e := { e with cursor_row := e.cursor_row - 1 }
    let e := if e.target_col ≠ e.cursor_col then { e with cursor_col := e.target_col } else e
    if getC e.document e.cursor_row e.cursor_col = nulc then e.seekCol else e
  else e

def TextEditor.move_cursor_down (e : TextEditor) : TextEditor :=
  if e.cursor_row < e.window_size_y * 4 - 1 then
    let e := { e with cursor_row := e.cursor_row + 1 }
    let e := if e.target_col ≠ e.cursor_col then { e with cursor_col := e.target_col } else e
    if getC e.document e.cursor_row e.cursor_col = nulc then e.seekCol else e
  else e

def TextEditor.move_cursor_left (e : TextEditor) : TextEditor :=
  let e :=
    if e.cursor_col > 0 then { e with cursor_col := e.cursor_col - 1 }
    else if e.cursor_row > 0 then
      let e := { e with cursor_col := e.window_size_x - 1, cursor_row := e.cursor_row - 1 }
      if getC e.document e.cursor_row e.cursor_col = nulc then e.seekCol else e
    else e
  { e with target_col := e.cursor_col }

def TextEditor.move_cursor_right (e : TextEditor) : TextEditor :=
  let e :=
    if e.cursor_col < e.window_size_x - 1 ∧
        getC e.document e.cursor_row e.cursor_col ≠ nulc then
      { e with cursor_col := e.cursor_col + 1 }
    else if e.cursor_row < e.window_size_y * 4 - 1 then
      { e with cursor_col := 0, cursor_row := e.cursor_row + 1 }
    else e
  { e with target_col := e.cursor_col }

/-! ## Desktop data model (src/lib.rs) -/

inductive TickStatus where
  | continuing
  | finished
  | awaitInput
deriving DecidableEq

inductive WindowState where
  | editing
  | running
  | listing
deriving DecidableEq

/-- `Window`, parametric in the opaque interpreter type `I`
(`simple_interp::Interpreter` is an external collaborator). -/
structure Window (I : Type) where
  editor : Option TextEditor
  interpreter : Option I
  interpreter_print_loc : Nat
  current_file : List Char
  state : WindowState
  window_x : Nat
  window_y : Nat
  focused : Bool
  focused_file : Nat
  vruntime : Nat
  taking_input : Bool
  input_buffer : List Char
deriving DecidableEq

/-- `SwimInterface`, parametric in the opaque interpreter type `I` and
filesystem type `FS`. The four-element window array is modelled as a
total function on indices (every source access is in bounds). -/
structure SwimState (I FS : Type) where
  windows : Nat → Window I
  filesystem : FS
  focused_editor : Nat
  num_files : Nat
  running_countdown : Nat
  current_process : Nat
  filename_input : List Char
  creating_file : Bool

/-- The external collaborators the core consumes: the interpreter contract,
the `ArrayString::push_char` of the input buffer, the keyboard driver's
`is_drawable`, the filesystem contract, and `draw_current` (which writes
only to the framebuffer, so it is a pure framebuffer transformation
indexed by the state it reads). -/
structure Env (I FS : Type) where
  blockedOnInput : I → Bool
  completed : I → Bool
  interpTick : I → Window I → FB → I × TickStatus × Window I × FB
  provideInput : I → List Char → I × Option (List Char)
  newInterp : List Char → I
  isDrawable : Char → Bool
  pushChar : List Char → Char → List Char
  draw : SwimState I FS → FB → FB
  listDirectory : FS → Except Unit (Nat × List (List Char)) × FS
  openRead : FS → List Char → Except Unit Nat × FS
  readFd : FS → Nat → Except Unit (List Char) × FS
  closeFd : FS → Nat → Except Unit Unit × FS

/-- An interpreter `tick` acts on its window only through the
`InterpreterOutput` trait, i.e. it may write the framebuffer and move the
window's output row, but no other window field. -/
def SinkOnly {I FS : Type} (env : Env I FS) : Prop :=
  ∀ (ip : I) (w : Window I) (fb : FB),
    (env.interpTick ip w fb).2.2.1 =
      { w with interpreter_print_loc := (env.interpTick ip w fb).2.2.1.interpreter_print_loc }

/-- Update one entry of the window array. -/
def updW {I : Type} (ws : Nat → Window I) (i : Nat) (w : Window I) : Nat → Window I :=
  fun j => if j = i then w else ws j

def setWindow {I FS : Type} (s : SwimState I FS) (i : Nat) (w : Window I) : SwimState I FS :=
  { s with windows := updW s.windows i w }

/-! ## Framebuffer loops (output sink, scrolling, window clearing) -/

/-- `for i in 0..len { plot(chars[i], i + x0, y, LightCyan on Black) }`. -/
def plotList : List Char → Nat → Nat → FB → FB
  | [], _, _, fb => fb
  | c :: cs, x, y, fb => plotList cs (x + 1) y (plot c x y lcCode fb)

/-- One row of the scroll: `let (c, color) = peek(col, row+1); plot(c, col, row, color)`
over the given column list. -/
def copyRowUp (y : Nat) : List Nat → FB → FB
  | [], fb => fb
  | c :: cs, fb =>
    copyRowUp y cs (plot (peek fb c (y + 1)).1 c y (peek fb c (y + 1)).2 fb)

/-- The scroll's outer loop over rows. -/
def scrollRows (wx : Nat) : List Nat → FB → FB
  | [], fb => fb
  | r :: rs, fb =>
    scrollRows wx rs (copyRowUp r (List.range' (wx + 1) ((WIN_WIDTH + wx) - (wx + 1))) fb)

/-- `plot(' ', col, y, Black on Black)` over the given column list. -/
def blankCols (y : Nat) : List Nat → FB → FB
  | [], fb => fb
  | c :: cs, fb => blankCols y cs (plot ' ' c y blackCode fb)

/-- `impl InterpreterOutput for Window { fn print(&mut self, chars: &[u8]) }`. -/
def Window.print {I : Type} (w : Window I) (fb : FB) (chars : List Char) :
    Window I × FB :=
  let wfb :=
    if w.interpreter_print_loc = 10 then
      let fb := scrollRows w.window_x
        (List.range' (w.window_y + 1)
          ((w.interpreter_print_loc + w.window_y) - (w.window_y + 1))) fb
      let fb := blankCols (w.interpreter_print_loc + w.window_y)
        (List.range' (w.window_x + 1)
          ((WIN_WIDTH + w.window_x - 1) - (w.window_x + 1))) fb
      ({ w with interpreter_print_loc := w.interpreter_print_loc - 1 }, fb)
    else (w, fb)
  let w := wfb.1
  let fb := wfb.2
  if h : chars.length > WIN_WIDTH - 2 then
    let fb := plotList (chars.take (WIN_WIDTH - 2)) (w.window_x + 1)
      (w.interpreter_print_loc + w.window_y + 1) fb
    let wfb := Window.print w fb (chars.drop (WIN_WIDTH - 2))
    ({ wfb.1 with interpreter_print_loc := wfb.1.interpreter_print_loc + 1 }, wfb.2)
  else if chars.length ≠ 0 then
    let fb := plotList (chars.take (chars.length - 1)) (w.window_x + 1)
      (w.interpreter_print_loc + w.window_y + 1) fb
    ({ w with interpreter_print_loc := w.interpreter_print_loc + 1 }, fb)
  else
    ({ w with interpreter_print_loc := w.interpreter_print_loc + 1 }, fb)
termination_by chars.length
decreasing_by
  have hw : WIN_WIDTH = 33 := rfl
  simp only [List.length_drop]
  omega

/-- Inner loop of `clear_window` (rows, for a fixed column). -/
def blankColRows (x : Nat) : List Nat → FB → FB
  | [], fb => fb
  | r :: rs, fb => blankColRows x rs (plot ' ' x r blackCode fb)

/-- Outer loop of `clear_window` (columns). -/
def clearLoop (rows : List Nat) : List Nat → FB → FB
  | [], fb => fb
  | c :: cs, fb => clearLoop rows cs (blankColRows c rows fb)

def Window.clear_window {I : Type} (w : Window I) (fb : FB) : FB :=
  clearLoop
    (List.range' (w.window_y + 1) ((w.window_y + 11) - (w.window_y + 1)))
    (List.range' (w.window_x + 1) ((w.window_x + WIN_WIDTH) - (w.window_x + 1))) fb

def Window.run_program {I FS : Type} (w : Window I) (env : Env I FS)
    (program : List Char) (filename : List Char) : Window I :=
  { w with interpreter := some (env.newInterp program), current_file := filename }

/-! ## Scheduler (src/lib.rs, `tick` / `min_vruntime`) -/

/-- A window holds a runnable program: `Running` state, an interpreter
exists, and it is neither blocked on input nor completed. -/
def runnableB {I FS : Type} (env : Env I FS) (w : Window I) : Bool :=
  match w.state, w.interpreter with
  | WindowState.running, some ip => !env.blockedOnInput ip && !env.completed ip
  | _, _ => false

/-- The `for i in 0..4` loop of `min_vruntime`, over the remaining index
list, with accumulator (min_vruntime, program_to_tick, num_programs). -/
def mvGo {I FS : Type} (env : Env I FS) (ws : Nat → Window I) :
    List Nat → Nat → Nat → Nat → Nat × Nat × Nat
  | [], mv, p, n => (mv, p, n)
  | i :: rest, mv, p, n =>
    if runnableB env (ws i) then
      if (ws i).vruntime < mv then mvGo env ws rest ((ws i).vruntime) i (n + 1)
      else mvGo env ws rest mv p (n + 1)
    else mvGo env ws rest mv p n

def minVruntime {I FS : Type} (env : Env I FS) (s : SwimState I FS) :
    Nat × Nat × Nat :=
  let r := mvGo env s.windows [0, 1, 2, 3] USIZE_MAX 4 0
  if r.1 = USIZE_MAX then (0, 4, 0) else r

/-- The number of runnable programs among the four windows. -/
def runnableCount {I FS : Type} (env : Env I FS) (s : SwimState I FS) : Nat :=
  ((List.range 4).filter (fun i => runnableB env (s.windows i))).length

/-- The `TickStatus::AwaitInput` arm of `tick`: clear the input buffer, set
`taking_input`, and scroll one line when the print row is the last one. -/
def awaitInputFx {I : Type} (w : Window I) (fb : FB) : Window I × FB :=
  let w := { w with input_buffer := [], taking_input := true }
  if w.interpreter_print_loc = 10 then
    let fb := scrollRows w.window_x
      (List.range' (w.window_y + 1)
        ((w.interpreter_print_loc + w.window_y) - (w.window_y + 1))) fb
    let fb := blankCols (w.interpreter_print_loc + w.window_y)
      (List.range' (w.window_x + 1)
        ((WIN_WIDTH + w.window_x - 1) - (w.window_x + 1))) fb
    ({ w with interpreter_print_loc := w.interpreter_print_loc - 1 }, fb)
  else (w, fb)

/-- One interpreter `tick` of the chosen window, with the window acting as
the output sink, followed by the handling of the returned status (the
`Continuing` and `Finished` arms do nothing further). -/
def tickSink {I FS : Type} (env : Env I FS) (ip : I) (w : Window I) (fb : FB) :
    Window I × FB :=
  let r := env.interpTick ip w fb
  match r.2.1 with
  | TickStatus.continuing => (r.2.2.1, r.2.2.2)
  | TickStatus.finished => (r.2.2.1, r.2.2.2)
  | TickStatus.awaitInput => awaitInputFx r.2.2.1 r.2.2.2

/-- `SwimInterface::tick`. -/
def tick {I FS : Type} (env : Env I FS) (s : SwimState I FS) (fb : FB) :
    SwimState I FS × FB :=
  let fb := env.draw s fb
  let sp :=
    if s.running_countdown > 0 then
      let p := if runnableB env (s.windows s.current_process) then s.current_process else 4
      (({ s with running_countdown := s.running_countdown - 1 } : SwimState I FS), p)
    else
      let r := minVruntime env s
      if r.2.1 ≠ 4 then
        (({ s with
            current_process := r.2.1
            running_countdown := SCHED_LATENCY / r.2.2 } : SwimState I FS), r.2.1)
      else (s, 4)
  let s := sp.1
  let p := sp.2
  if p ≠ 4 then
    match (s.windows p).interpreter with
    | none => (s, fb)
    | some ip =>
      let wfb := tickSink env ip (s.windows p) fb
      (setWindow s p
        { wfb.1 with
          vruntime := wfb.1.vruntime + 1
          interpreter := some (env.interpTick ip (s.windows p) fb).1 }, wfb.2)
  else (s, fb)

/-! ## Input routing (src/lib.rs, `handle_unicode`) -/

/-- The filesystem closure of the `'r'` launch; the window mutation
(`run_program`) persists even when the subsequent `close` fails. Returns
(window, filesystem, whether some operation failed). -/
def launchOps {I FS : Type} (env : Env I FS) (fs : FS) (w : Window I) :
    Window I × FS × Bool :=
  match env.listDirectory fs with
  | (Except.error _, fs) => (w, fs, true)
  | (Except.ok (_, files), fs) =>
    let filename := files.getD w.focused_file (List.replicate 10 nulc)
    match env.openRead fs filename with
    | (Except.error _, fs) => (w, fs, true)
    | (Except.ok fd, fs) =>
      match env.readFd fs fd with
      | (Except.error _, fs) => (w, fs, true)
      | (Except.ok buf, fs) =>
        let w := w.run_program env buf filename
        match env.closeFd fs fd with
        | (Except.error _, fs) => (w, fs, true)
        | (Except.ok _, fs) => (w, fs, false)

def fsErrorMsg : List Char := "filesystem error".toList

/-- `SwimInterface::handle_unicode`. The `WindowState::Editing` arm is
`todo!()` in the source (a panic), modelled as `none`. -/
def handle_unicode {I FS : Type} (env : Env I FS) (s : SwimState I FS)
    (fb : FB) (key : Char) : Option (SwimState I FS × FB) :=
  match (s.windows s.focused_editor).state with
  | WindowState.editing => none
  | WindowState.running =>
    if (s.windows s.focused_editor).taking_input then
      match (s.windows s.focused_editor).interpreter with
      | none => some (s, fb)
      | some ip =>
        if key = '\n' then
          let mv := (minVruntime env s).1
          let s := setWindow s s.focused_editor
            { s.windows s.focused_editor with vruntime := mv }
          let pr := env.provideInput ip (s.windows s.focused_editor).input_buffer
          let sfb :=
            match pr.2 with
            | none => (s, fb)
            | some msg =>
              let pw := (s.windows s.focused_editor).print fb msg
              (setWindow s s.focused_editor pw.1, pw.2)
          let s := sfb.1
          let fb := sfb.2
          let s := setWindow s s.focused_editor
            { s.windows s.focused_editor with
              interpreter_print_loc := (s.windows s.focused_editor).interpreter_print_loc + 1 }
          let s := setWindow s s.focused_editor
            { s.windows s.focused_editor with taking_input := false }
          let s := setWindow s s.focused_editor
            { s.windows s.focused_editor with interpreter := some pr.1 }
          some (s, fb)
        else if key = '\u0008' then
          let s := setWindow s s.focused_editor
            { s.windows s.focused_editor with
              input_buffer := env.pushChar (s.windows s.focused_editor).input_buffer '\u0008' }
          let s := setWindow s s.focused_editor
            { s.windows s.focused_editor with interpreter := some ip }
          some (s, fb)
        else
          let s :=
            if env.isDrawable key then
              setWindow s s.focused_editor
                { s.windows s.focused_editor with
                  input_buffer := env.pushChar (s.windows s.focused_editor).input_buffer key }
            else s
          let s := setWindow s s.focused_editor
            { s.windows s.focused_editor with interpreter := some ip }
          some (s, fb)
    else some (s, fb)
  | WindowState.listing =>
    if key = 'r' then
      let fb := (s.windows s.focused_editor).clear_window fb
      let s := setWindow s s.focused_editor
        { s.windows s.focused_editor with vruntime := (minVruntime env s).1 }
      let s := setWindow s s.focused_editor
        { s.windows s.focused_editor with state := WindowState.running }
      let lr := launchOps env s.filesystem (s.windows s.focused_editor)
      let s := { setWindow s s.focused_editor lr.1 with filesystem := lr.2.1 }
      if lr.2.2 then
        let pw := (s.windows s.focused_editor).print fb fsErrorMsg
        some (setWindow s s.focused_editor pw.1, pw.2)
      else some (s, fb)
    else some (s, fb)

/-! ## Derived notions used in claim statements -/

/-- Apply a sequence of `print` calls (one logical line each). -/
def printSeq {I : Type} (w : Window I) (fb : FB) (ls : List (List Char)) :
    Window I × FB :=
  ls.foldl (fun wfb l => Window.print wfb.1 wfb.2 l) (w, fb)

/-- The expected content of an interior window row displaying line `l`,
at relative column `i` (`1 ≤ i ≤ WIN_WIDTH - 1`): the sink plots
`chars[0..len-1]` starting at relative column 1, the rest stays blank. -/
def lineCell (l : List Char) (i : Nat) : Cell :=
  if 1 ≤ i ∧ i ≤ l.length - 1 then (l.getD (i - 1) nulc, lcCode) else (' ', blackCode)

/-! ## Concrete test fixtures (used by witnesses and counterexamples) -/

/-- A trivial concrete interpreter: the pair (blocked_on_input, completed). -/
abbrev TI := Bool × Bool

def env0 : Env TI Unit where
  blockedOnInput := Prod.fst
  completed := Prod.snd
  interpTick := fun i w fb => (i, TickStatus.continuing, w, fb)
  provideInput := fun i _ => (i, none)
  newInterp := fun _ => (false, false)
  isDrawable := fun _ => true
  pushChar := fun l c => l ++ [c]
  draw := fun _ fb => fb
  listDirectory := fun fs => (Except.ok (0, []), fs)
  openRead := fun fs _ => (Except.ok 0, fs)
  readFd := fun fs _ => (Except.ok [], fs)
  closeFd := fun fs _ => (Except.ok (), fs)

/-- `env0` with a failing `list_directory`, for the filesystem-error path. -/
def envFsFail : Env TI Unit :=
  { env0 with listDirectory := fun fs => (Except.error (), fs) }

def wListing : Window TI where
  editor := none
  interpreter := none
  interpreter_print_loc := 0
  current_file := List.replicate 10 nulc
  state := WindowState.listing
  window_x := 0
  window_y := 1
  focused := false
  focused_file := 0
  vruntime := 0
  taking_input := false
  input_buffer := []

def wRun (vr : Nat) : Window TI :=
  { wListing with
    state := WindowState.running
    interpreter := some (false, false)
    vruntime := vr }

def wBlocked : Window TI :=
  { wListing with
    state := WindowState.running
    interpreter := some (true, false)
    taking_input := true }

def mkS (ws : Nat → Window TI) : SwimState TI Unit where
  windows := ws
  filesystem := ()
  focused_editor := 0
  num_files := 4
  running_countdown := 0
  current_process := 0
  filename_input := []
  creating_file := false

def fb0 : FB := fun _ _ => (' ', blackCode)

def sSched : SwimState TI Unit :=
  mkS (fun i => if i = 0 then wRun 5 else if i = 1 then wRun 3 else wListing)

def sBlocked : SwimState TI Unit :=
  mkS (fun i => if i = 0 then wBlocked else wListing)

def sListing : SwimState TI Unit := mkS (fun _ => wListing)

def edC7 : TextEditor where
  document := [['a', 'b', nulc, nulc], [nulc, nulc, nulc, nulc],
               [nulc, nulc, nulc, nulc], [nulc, nulc, nulc, nulc]]
  cursor_col := 0
  cursor_row := 0
  target_col := 0
  focus_x := 0
  focus_y := 0
  window_size_x := 4
  window_size_y := 1
  focused := true

def edC7end : TextEditor := { edC7 with cursor_col := 2 }

def edC9 : TextEditor := { edC7 with cursor_row := 1, cursor_col := 1 }

/-- A fresh running window for the output-sink claims. -/
def wSink : Window TI :=
  { wListing with state := WindowState.running, interpreter := some (false, false) }

/-! # Theorems -/

/-! ## List helper lemmas -/

lemma list_getD_set_eq {α : Type} (l : List α) (i : Nat) (a d : α)
    (h : i < l.length) : (l.set i a).getD i d = a := by
  induction l generalizing i with
  | nil => simp at h
  | cons x xs ih =>
    cases i with
    | zero => rfl
    | succ n =>
      simp only [List.set, List.getD, List.get?_cons_succ]
      exact ih n (by simpa using h)

lemma list_getD_set_ne {α : Type} (l : List α) (i j : Nat) (a d : α)
    (hij : i ≠ j) : (l.set i a).getD j d = l.getD j d := by
  induction l generalizing i j with
  | nil => rfl
  | cons x xs ih =>
    cases i with
    | zero =>
      cases j with
      | zero => exact absurd rfl hij
      | succ m => rfl
    | succ n =>
      cases j with
      | zero => rfl
      | succ m =>
        simp only [List.set, List.getD, List.get?_cons_succ]
        exact ih n m (fun h => hij (by rw [h]))

lemma list_set_set {α : Type} (l : List α) (i : Nat) (a b : α) :
    (l.set i a).set i b = l.set i b := by
  induction l generalizing i with
  | nil => rfl
  | cons x xs ih =>
    cases i with
    | zero => rfl
    | succ n => simp only [List.set]; rw [ih]

lemma list_set_getD_self {α : Type} (l : List α) (i : Nat) (d : α)
    (h : i < l.length) : l.set i (l.getD i d) = l := by
  induction l generalizing i with
  | nil => rfl
  | cons x xs ih =>
    cases i with
    | zero => rfl
    | succ n =>
      have hx : (x :: xs).getD (n + 1) d = xs.getD n d := rfl
      rw [hx]
      simp only [List.set]
      rw [ih n (by simpa using h)]

lemma list_getD_replicate {α : Type} (n j : Nat) (a : α) :
    (List.replicate n a).getD j a = a := by
  induction n generalizing j with
  | zero => rfl
  | succ m ih =>
    cases j with
    | zero => rfl
    | succ k => exact ih k

lemma getC_setC_eq (d : List (List Char)) (r c : Nat) (ch : Char)
    (hr : r < d.length) (hc : c < (d.getD r []).length) :
    getC (setC d r c ch) r c = ch := by
  unfold getC setC
  rw [list_getD_set_eq _ _ _ _ hr, list_getD_set_eq _ _ _ _ hc]

lemma getC_setC_col_ne (d : List (List Char)) (r c c' : Nat) (ch : Char)
    (hr : r < d.length) (hcc : c ≠ c') :
    getC (setC d r c ch) r c' = getC d r c' := by
  unfold getC setC
  rw [list_getD_set_eq _ _ _ _ hr, list_getD_set_ne _ _ _ _ _ hcc]

lemma setC_setC (d : List (List Char)) (r c : Nat) (a b : Char)
    (hr : r < d.length) :
    setC (setC d r c a) r c b = setC d r c b := by
  unfold setC
  rw [list_getD_set_eq _ _ _ _ hr, list_set_set, list_set_set]

lemma setC_getC_self (d : List (List Char)) (r c : Nat)
    (hr : r < d.length) (hc : c < (d.getD r []).length) :
    setC d r c (getC d r c) = d := by
  unfold setC getC
  rw [list_set_getD_self _ _ _ hc, list_set_getD_self _ _ _ hr]

/-! ## Editor lemmas -/

lemma seekCol_target (e : TextEditor) : e.seekCol.target_col = e.target_col := by
  unfold TextEditor.seekCol
  split <;> rfl

/-- `shift` is the identity when every visited cell is already NUL. -/
lemma shiftList_all_nul (d : List (List Char)) (row wsx : Nat) (l : List Nat)
    (h : ∀ i ∈ l, getC d row i = nulc) : shiftList d row wsx l = d := by
  cases l with
  | nil => rfl
  | cons i rest =>
    unfold shiftList
    rw [if_pos (h i (List.mem_cons_self i rest))]

/-! ## Claim C8 -/

/-- Claim C8: for every editor state, `move_cursor_up` and
`move_cursor_down` leave `target_col` unchanged, and immediately after any
horizontal motion (`move_cursor_left`, `move_cursor_right`) or insertion
(`push_char`), `target_col` equals `cursor_col`. -/
theorem C8_target_col_discipline (e : TextEditor) (c : Char) :
    e.move_cursor_up.target_col = e.target_col ∧
    e.move_cursor_down.target_col = e.target_col ∧
    e.move_cursor_left.target_col = e.move_cursor_left.cursor_col ∧
    e.move_cursor_right.target_col = e.move_cursor_right.cursor_col ∧
    (e.push_char c).target_col = (e.push_char c).cursor_col := by
  refine ⟨?_, ?_, rfl, rfl, rfl⟩
  · unfold TextEditor.move_cursor_up
    split
    · dsimp only
      split <;> split <;> simp [seekCol_target]
    · rfl
  · unfold TextEditor.move_cursor_down
    split
    · dsimp only
      split <;> split <;> simp [seekCol_target]
    · rfl

/-! ## Claim C9 -/

/-- Claim C9: for every editor state with `cursor_row + 1 ≠ window_size_y * 4`
(and satisfying the documented editor invariant `cursor_row < window_size_y * 4`,
with a document of `window_size_y * 4` rows), `newline` increments
`cursor_row`, resets `cursor_col` to 0, blanks every cell of the new cursor
row, and leaves every other row unchanged — the rows below the cursor are
not shifted down. -/
theorem C9_newline_blank_row_no_shift (e : TextEditor)
    (hne : e.cursor_row + 1 ≠ e.window_size_y * 4)
    (hinv : e.cursor_row < e.window_size_y * 4)
    (hdoc : e.document.length = e.window_size_y * 4) :
    e.newline.cursor_row = e.cursor_row + 1 ∧
    e.newline.cursor_col = 0 ∧
    e.newline.document =
      e.document.set (e.cursor_row + 1) (List.replicate e.window_size_x nulc) ∧
    (∀ r, r ≠ e.cursor_row + 1 → e.newline.document.getD r [] = e.document.getD r []) ∧
    (∀ j, getC e.newline.document (e.cursor_row + 1) j = nulc) := by
  have hlt : e.cursor_row + 1 < e.window_size_y * 4 := by omega
  have hrange : e.cursor_row + 1 - e.window_size_y * 4 = 0 := by omega
  have hstep : e.newline =
      { e with
        cursor_row := e.cursor_row + 1
        cursor_col := 0
        document :=
          e.document.set (e.cursor_row + 1) (List.replicate e.window_size_x nulc) } := by
    unfold TextEditor.newline
    rw [if_pos hne]
    dsimp only
    rw [hrange]
    rfl
  rw [hstep]
  refine ⟨rfl, rfl, rfl, ?_, ?_⟩
  · intro r hr
    exact list_getD_set_ne _ _ _ _ _ (fun h => hr h.symm)
  · intro j
    unfold getC
    rw [list_getD_set_eq _ _ _ _ (by rw [hdoc]; omega)]
    exact list_getD_replicate _ _ _

/-! ## Claim C7 -/

/-- Counterexample to claim C7 as stated: at `edC7` the cursor sits at
column 0 of the row "ab" (the insertion causes no wrap, since
`cursor_col = 0 < window_size_x - 1 = 3`, and the row is not at capacity,
since its last cells are NUL), yet `push_char 'x'` followed by
`backspace_char` does not restore the document: `push_char` overwrites
`'a'` and the backspace then shifts `'b'` left, leaving the row "b". -/
theorem C7_counterexample :
    edC7.cursor_col < edC7.window_size_x - 1 ∧
    getC edC7.document edC7.cursor_row (edC7.window_size_x - 1) = nulc ∧
    ((edC7.push_char 'x').backspace_char).document ≠ edC7.document := by
  decide

/-- Claim C7 (amended): `push_char c` followed by `backspace_char`
restores the document grid and the cursor position when the inserted
character is not NUL, the insertion does not cause a wrap
(`cursor_col < window_size_x - 1`), and — as the counterexample forces —
the cursor sits at the logical end of its row, i.e. every cell of the
cursor row at or after the cursor is NUL. (Bounds hypotheses state that
the access is in range, as guaranteed by the editor invariant.) -/
theorem C7_push_backspace_inverse_at_line_end (e : TextEditor) (c : Char)
    (hc : c ≠ nulc)
    (hcol : e.cursor_col < e.window_size_x - 1)
    (hrow : e.cursor_row < e.document.length)
    (hlen : (e.document.getD e.cursor_row []).length = e.window_size_x)
    (hend : ∀ j, e.cursor_col ≤ j → j < e.window_size_x →
      getC e.document e.cursor_row j = nulc) :
    ((e.push_char c).backspace_char).document = e.document ∧
    ((e.push_char c).backspace_char).cursor_row = e.cursor_row ∧
    ((e.push_char c).backspace_char).cursor_col = e.cursor_col := by
  have hwsx1 : e.cursor_col + 1 < e.window_size_x := by omega
  have hclen : e.cursor_col < (e.document.getD e.cursor_row []).length := by
    rw [hlen]; omega
  have hget1 : getC (setC e.document e.cursor_row e.cursor_col c)
      e.cursor_row e.cursor_col = c := getC_setC_eq _ _ _ _ hrow hclen
  have hget2 : getC (setC e.document e.cursor_row e.cursor_col c)
      e.cursor_row (e.cursor_col + 1) = getC e.document e.cursor_row (e.cursor_col + 1) :=
    getC_setC_col_ne _ _ _ _ _ hrow (by omega)
  have hnul1 : getC e.document e.cursor_row (e.cursor_col + 1) = nulc :=
    hend _ (by omega) hwsx1
  have hnul0 : getC e.document e.cursor_row e.cursor_col = nulc :=
    hend _ le_rfl (by omega)
  have hpush : e.push_char c =
      { e with
        document := setC e.document e.cursor_row e.cursor_col c
        cursor_col := e.cursor_col + 1
        target_col := e.cursor_col + 1 } := by
    unfold TextEditor.push_char
    dsimp only
    rw [if_pos hcol]
  have hrange : List.range' e.cursor_col (e.window_size_x - e.cursor_col) =
      e.cursor_col :: List.range' (e.cursor_col + 1) (e.window_size_x - e.cursor_col - 1) := by
    rw [show e.window_size_x - e.cursor_col = (e.window_size_x - e.cursor_col - 1) + 1
      from by omega]
    rw [List.range'_succ]
    simp only [Nat.add_sub_cancel]
  have hd : setC (setC e.document e.cursor_row e.cursor_col c)
      e.cursor_row e.cursor_col nulc = e.document := by
    rw [setC_setC _ _ _ _ _ hrow, ← hnul0]
    exact setC_getC_self _ _ _ hrow hclen
  have hshift : shiftList (setC e.document e.cursor_row e.cursor_col c)
      e.cursor_row e.window_size_x
      (List.range' e.cursor_col (e.window_size_x - e.cursor_col)) = e.document := by
    rw [hrange]
    unfold shiftList
    rw [if_neg (by rw [hget1]; exact hc)]
    rw [if_neg (by omega)]
    rw [hget2, hnul1, hd]
    refine shiftList_all_nul _ _ _ _ ?_
    intro i hi
    rw [List.mem_range'_1] at hi
    exact hend i (by omega) (by omega)
  have hfinal : (e.push_char c).backspace_char =
      { e with
        document := e.document
        cursor_col := e.cursor_col
        target_col := e.cursor_col } := by
    rw [hpush]
    unfold TextEditor.backspace_char
    dsimp only
    rw [if_pos (Or.inl (Nat.succ_ne_zero e.cursor_col))]
    rw [if_pos (Nat.succ_pos e.cursor_col)]
    simp only [Nat.add_sub_cancel]
    rw [if_neg (by rw [hget1]; exact hc)]
    unfold TextEditor.shift
    dsimp only
    rw [hshift]
  rw [hfinal]
  exact ⟨rfl, rfl, rfl⟩

/-- Witness for the amended C7 at a concrete editor whose cursor is at the
logical end of its row. -/
theorem C7_push_backspace_inverse_witness :
    (edC7end.cursor_col < edC7end.window_size_x - 1 ∧ ('x' : Char) ≠ nulc) ∧
    ((edC7end.push_char 'x').backspace_char).document = edC7end.document ∧
    ((edC7end.push_char 'x').backspace_char).cursor_row = edC7end.cursor_row ∧
    ((edC7end.push_char 'x').backspace_char).cursor_col = edC7end.cursor_col :=
  ⟨⟨by decide, by decide⟩,
    C7_push_backspace_inverse_at_line_end edC7end 'x' (by decide) (by decide)
      (by decide) (by decide)
      (by
        intro j h1 h2
        have hj : j < 4 := h2
        have hj2 : 2 ≤ j := h1
        interval_cases j <;> decide)⟩

/-- Witness for C9 at a concrete editor state. -/
theorem C9_newline_blank_row_no_shift_witness :
    (edC9.cursor_row + 1 ≠ edC9.window_size_y * 4) ∧
    edC9.newline.cursor_row = edC9.cursor_row + 1 ∧
    edC9.newline.cursor_col = 0 ∧
    edC9.newline.document =
      edC9.document.set (edC9.cursor_row + 1) (List.replicate edC9.window_size_x nulc) :=
  ⟨by decide,
    (C9_newline_blank_row_no_shift edC9 (by decide) (by decide) (by decide)).1,
    (C9_newline_blank_row_no_shift edC9 (by decide) (by decide) (by decide)).2.1,
    (C9_newline_blank_row_no_shift edC9 (by decide) (by decide) (by decide)).2.2.1⟩

/-! ## Scheduler lemmas -/

lemma updW_eq {I : Type} (ws : Nat → Window I) (i : Nat) (w : Window I) :
    updW ws i w i = w := by
  unfold updW; rw [if_pos rfl]

lemma updW_ne {I : Type} (ws : Nat → Window I) (i : Nat) (w : Window I)
    (j : Nat) (h : j ≠ i) : updW ws i w j = ws j := by
  unfold updW; rw [if_neg h]

lemma runnable_parts {I FS : Type} (env : Env I FS) (w : Window I)
    (h : runnableB env w = true) :
    w.state = WindowState.running ∧ ∃ ip, w.interpreter = some ip ∧
      env.blockedOnInput ip = false ∧ env.completed ip = false := by
  unfold runnableB at h
  cases hs : w.state <;> cases hi : w.interpreter <;> rw [hs, hi] at h <;>
    simp_all

lemma mvGo_count {I FS : Type} (env : Env I FS) (ws : Nat → Window I) :
    ∀ (l : List Nat) (mv p n : Nat),
      (mvGo env ws l mv p n).2.2 = n + l.countP (fun i => runnableB env (ws i)) := by
  intro l
  induction l with
  | nil => intro mv p n; simp [mvGo]
  | cons i rest ih =>
    intro mv p n
    unfold mvGo
    by_cases hi : runnableB env (ws i)
    · rw [if_pos hi]
      by_cases hv : (ws i).vruntime < mv
      · rw [if_pos hv, ih]
        simp [List.countP_cons, hi]
        omega
      · rw [if_neg hv, ih]
        simp [List.countP_cons, hi]
        omega
    · rw [if_neg hi, ih]
      simp [List.countP_cons, hi]

/-- Full characterization of the `min_vruntime` loop: either no runnable
window was seen (accumulator returned unchanged), or the returned index is
a runnable window of minimal vruntime, earliest in scan order among
ties. -/
lemma mvGo_spec {I FS : Type} (env : Env I FS) (ws : Nat → Window I) :
    ∀ (l : List Nat) (mv p n : Nat), l.Sorted (· < ·) →
    ((mvGo env ws l mv p n).1 = mv ∧ (mvGo env ws l mv p n).2.1 = p ∧
      ∀ j ∈ l, runnableB env (ws j) = true → mv ≤ (ws j).vruntime)
    ∨ (∃ j, j ∈ l ∧ runnableB env (ws j) = true ∧
        (mvGo env ws l mv p n).2.1 = j ∧
        (mvGo env ws l mv p n).1 = (ws j).vruntime ∧
        (ws j).vruntime < mv ∧
        ∀ k ∈ l, runnableB env (ws k) = true →
          (ws j).vruntime ≤ (ws k).vruntime ∧
          (k < j → (ws j).vruntime < (ws k).vruntime)) := by
  intro l
  induction l with
  | nil =>
    intro mv p n _
    exact Or.inl ⟨rfl, rfl, by simp⟩
  | cons i rest ih =>
    intro mv p n hsorted
    have hsrest : rest.Sorted (· < ·) := hsorted.of_cons
    have hlt : ∀ k ∈ rest, i < k := (List.sorted_cons.mp hsorted).1
    unfold mvGo
    by_cases hi : runnableB env (ws i)
    · by_cases hv : (ws i).vruntime < mv
      · rw [if_pos hi, if_pos hv]
        rcases ih ((ws i).vruntime) i (n + 1) hsrest with ⟨h1, h2, h3⟩ |
          ⟨j, hjmem, hrj, h1, h2, h3, h4⟩
        · refine Or.inr ⟨i, List.mem_cons_self i rest, hi, h2, h1, hv, ?_⟩
          intro k hk hrk
          rcases List.mem_cons.mp hk with hk | hk
          · subst hk
            exact ⟨le_rfl, fun hki => absurd hki (Nat.lt_irrefl k)⟩
          · have hik := hlt k hk
            exact ⟨h3 k hk hrk, fun hki => absurd hki (by omega)⟩
        · refine Or.inr ⟨j, List.mem_cons_of_mem i hjmem, hrj, h1, h2, by omega, ?_⟩
          intro k hk hrk
          rcases List.mem_cons.mp hk with hk | hk
          · subst hk
            exact ⟨by omega, fun _ => by omega⟩
          · exact h4 k hk hrk
      · rw [if_pos hi, if_neg hv]
        rcases ih mv p (n + 1) hsrest with ⟨h1, h2, h3⟩ |
          ⟨j, hjmem, hrj, h1, h2, h3, h4⟩
        · refine Or.inl ⟨h1, h2, ?_⟩
          intro k hk hrk
          rcases List.mem_cons.mp hk with hk | hk
          · subst hk; omega
          · exact h3 k hk hrk
        · refine Or.inr ⟨j, List.mem_cons_of_mem i hjmem, hrj, h1, h2, h3, ?_⟩
          intro k hk hrk
          rcases List.mem_cons.mp hk with hk | hk
          · subst hk
            exact ⟨by omega, fun _ => by omega⟩
          · exact h4 k hk hrk
    · rw [if_neg hi]
      rcases ih mv p n hsrest with ⟨h1, h2, h3⟩ | ⟨j, hjmem, hrj, h1, h2, h3, h4⟩
      · refine Or.inl ⟨h1, h2, ?_⟩
        intro k hk hrk
        rcases List.mem_cons.mp hk with hk | hk
        · subst hk; rw [hrk] at hi; exact absurd rfl hi
        · exact h3 k hk hrk
      · refine Or.inr ⟨j, List.mem_cons_of_mem i hjmem, hrj, h1, h2, h3, ?_⟩
        intro k hk hrk
        rcases List.mem_cons.mp hk with hk | hk
        · subst hk; rw [hrk] at hi; exact absurd rfl hi
        · exact h4 k hk hrk

lemma mem_list0123 (i : Nat) : i ∈ ([0, 1, 2, 3] : List Nat) ↔ i < 4 := by
  simp only [List.mem_cons, List.mem_singleton, List.not_mem_nil, or_false]
  omega

lemma runnableCount_eq_countP {I FS : Type} (env : Env I FS) (s : SwimState I FS) :
    runnableCount env s =
      ([0, 1, 2, 3] : List Nat).countP (fun i => runnableB env (s.windows i)) := by
  unfold runnableCount
  rw [List.countP_eq_length_filter]
  rfl

/-- When no window is runnable, `min_vruntime` returns the sentinel
`(0, 4, 0)`. -/
lemma minVruntime_none {I FS : Type} (env : Env I FS) (s : SwimState I FS)
    (h : ∀ i, i < 4 → runnableB env (s.windows i) = false) :
    minVruntime env s = (0, 4, 0) := by
  have e0 := h 0 (by omega)
  have e1 := h 1 (by omega)
  have e2 := h 2 (by omega)
  have e3 := h 3 (by omega)
  unfold minVruntime
  simp [mvGo, e0, e1, e2, e3]

/-- When some window is runnable (and no vruntime has reached the
`usize::MAX` sentinel), `min_vruntime` returns a runnable window of
minimal vruntime with ties broken by the lowest index, together with its
vruntime and the runnable count. -/
lemma minVruntime_select {I FS : Type} (env : Env I FS) (s : SwimState I FS)
    (hex : ∃ i, i < 4 ∧ runnableB env (s.windows i) = true)
    (hv : ∀ i, i < 4 → (s.windows i).vruntime < USIZE_MAX) :
    ∃ p, p < 4 ∧ runnableB env (s.windows p) = true ∧
      (minVruntime env s).2.1 = p ∧
      (minVruntime env s).1 = (s.windows p).vruntime ∧
      (minVruntime env s).2.2 = runnableCount env s ∧
      (∀ j, j < 4 → runnableB env (s.windows j) = true →
        (s.windows p).vruntime ≤ (s.windows j).vruntime ∧
        (j < p → (s.windows p).vruntime < (s.windows j).vruntime)) := by
  rcases mvGo_spec env s.windows [0, 1, 2, 3] USIZE_MAX 4 0 (by decide) with
    ⟨_, _, h3⟩ | ⟨j, hjmem, hrj, hps, hmv, hltmax, hmin⟩
  · obtain ⟨i, hi4, hri⟩ := hex
    have := h3 i ((mem_list0123 i).mpr hi4) hri
    have := hv i hi4
    omega
  · have hj4 : j < 4 := (mem_list0123 j).mp hjmem
    have hne : (mvGo env s.windows [0, 1, 2, 3] USIZE_MAX 4 0).1 ≠ USIZE_MAX := by
      rw [hmv]; omega
    have hmvr : minVruntime env s = mvGo env s.windows [0, 1, 2, 3] USIZE_MAX 4 0 := by
      unfold minVruntime
      rw [if_neg hne]
    refine ⟨j, hj4, hrj, ?_, ?_, ?_, ?_⟩
    · rw [hmvr]; exact hps
    · rw [hmvr]; exact hmv
    · rw [hmvr, mvGo_count, runnableCount_eq_countP]
      omega
    · intro k hk4 hrk
      exact hmin k ((mem_list0123 k).mpr hk4) hrk

lemma sinkOnly_vruntime {I FS : Type} (env : Env I FS) (hs : SinkOnly env)
    (ip : I) (w : Window I) (fb : FB) :
    (env.interpTick ip w fb).2.2.1.vruntime = w.vruntime := by
  rw [hs ip w fb]

lemma awaitInputFx_vruntime {I : Type} (w : Window I) (fb : FB) :
    (awaitInputFx w fb).1.vruntime = w.vruntime := by
  unfold awaitInputFx
  dsimp only
  split <;> rfl

lemma tickSink_vruntime {I FS : Type} (env : Env I FS) (hs : SinkOnly env)
    (ip : I) (w : Window I) (fb : FB) :
    (tickSink env ip w fb).1.vruntime = w.vruntime := by
  unfold tickSink
  dsimp only
  cases hst : (env.interpTick ip w fb).2.1 <;> dsimp only
  · exact sinkOnly_vruntime env hs ip w fb
  · exact sinkOnly_vruntime env hs ip w fb
  · rw [awaitInputFx_vruntime]
    exact sinkOnly_vruntime env hs ip w fb

/-- The window index returned by `min_vruntime` is either the sentinel 4
or a runnable window. -/
lemma minVruntime_choice_runnable {I FS : Type} (env : Env I FS)
    (s : SwimState I FS) :
    (minVruntime env s).2.1 = 4 ∨
    ((minVruntime env s).2.1 < 4 ∧
      runnableB env (s.windows ((minVruntime env s).2.1)) = true) := by
  rcases mvGo_spec env s.windows [0, 1, 2, 3] USIZE_MAX 4 0 (by decide) with
    ⟨h1, h2, _⟩ | ⟨j, hjmem, hrj, hps, hmv, hltmax, _⟩
  · left
    unfold minVruntime
    dsimp only
    rw [if_pos h1]
  · right
    have hne : (mvGo env s.windows [0, 1, 2, 3] USIZE_MAX 4 0).1 ≠ USIZE_MAX := by
      rw [hmv]; omega
    have hmvr : minVruntime env s = mvGo env s.windows [0, 1, 2, 3] USIZE_MAX 4 0 := by
      unfold minVruntime
      dsimp only
      rw [if_neg hne]
    rw [hmvr, hps]
    exact ⟨(mem_list0123 j).mp hjmem, hrj⟩

/-- Unfolding of `tick` on a tick where the slice has expired and
`min_vruntime` selects window `p` (holding interpreter `ip`). -/
lemma tick_select {I FS : Type} (env : Env I FS) (s : SwimState I FS) (fb : FB)
    (p : Nat) (ip : I)
    (hc0 : ¬ s.running_countdown > 0)
    (hps : (minVruntime env s).2.1 = p)
    (hp4 : p ≠ 4)
    (hip : (s.windows p).interpreter = some ip) :
    tick env s fb =
      (setWindow
        ({ s with
            current_process := p
            running_countdown := SCHED_LATENCY / (minVruntime env s).2.2 }) p
        { (tickSink env ip (s.windows p) (env.draw s fb)).1 with
          vruntime := (tickSink env ip (s.windows p) (env.draw s fb)).1.vruntime + 1
          interpreter := some (env.interpTick ip (s.windows p) (env.draw s fb)).1 },
        (tickSink env ip (s.windows p) (env.draw s fb)).2) := by
  unfold tick
  dsimp only
  rw [if_neg hc0]
  rw [hps]
  rw [if_pos hp4]
  dsimp only
  rw [if_pos hp4]
  have hws : ({ s with
      current_process := p
      running_countdown := SCHED_LATENCY / (minVruntime env s).2.2 } :
        SwimState I FS).windows p = s.windows p := rfl
  rw [hip]

/-! ## Claim C1 -/

/-- Claim C1: on a tick where `running_countdown` is 0 and at least one
program is runnable, the scheduler selects the runnable window with the
smallest vruntime (ties broken by the lowest index), sets
`current_process` to it, sets `running_countdown` to `SCHED_LATENCY`
divided by the number of runnable programs, and ticks exactly that
window's interpreter once, incrementing its vruntime by one. (Hypotheses:
the interpreter acts on the window only as an output sink, and no
vruntime has reached the `usize::MAX` sentinel.) -/
theorem C1_slice_expiry_selects_min_vruntime {I FS : Type} (env : Env I FS)
    (s : SwimState I FS) (fb : FB)
    (hsink : SinkOnly env)
    (h0 : s.running_countdown = 0)
    (hex : ∃ i, i < 4 ∧ runnableB env (s.windows i) = true)
    (hv : ∀ i, i < 4 → (s.windows i).vruntime < USIZE_MAX) :
    ∃ p, p < 4 ∧ runnableB env (s.windows p) = true ∧
      (∀ j, j < 4 → runnableB env (s.windows j) = true →
        (s.windows p).vruntime ≤ (s.windows j).vruntime ∧
        (j < p → (s.windows p).vruntime < (s.windows j).vruntime)) ∧
      (tick env s fb).1.current_process = p ∧
      (tick env s fb).1.running_countdown = SCHED_LATENCY / runnableCount env s ∧
      (∀ j, j ≠ p → (tick env s fb).1.windows j = s.windows j) ∧
      ((tick env s fb).1.windows p).vruntime = (s.windows p).vruntime + 1 ∧
      (∀ ip, (s.windows p).interpreter = some ip →
        ((tick env s fb).1.windows p).interpreter =
          some (env.interpTick ip (s.windows p) (env.draw s fb)).1) := by
  obtain ⟨p, hp4, hrp, hps, hmv, hcount, hminl⟩ := minVruntime_select env s hex hv
  obtain ⟨hst, ip, hip, hbl, hcp⟩ := runnable_parts env _ hrp
  have hc0 : ¬ s.running_countdown > 0 := by omega
  have heq := tick_select env s fb p ip hc0 hps (by omega) hip
  refine ⟨p, hp4, hrp, hminl, ?_, ?_, ?_, ?_, ?_⟩
  · rw [heq]; rfl
  · rw [heq]
    show SCHED_LATENCY / (minVruntime env s).2.2 = SCHED_LATENCY / runnableCount env s
    rw [hcount]
  · intro j hj
    rw [heq]
    show updW _ p _ j = s.windows j
    rw [updW_ne _ _ _ _ hj]
  · rw [heq]
    show (updW _ p _ p).vruntime = (s.windows p).vruntime + 1
    rw [updW_eq]
    show (tickSink env ip (s.windows p) (env.draw s fb)).1.vruntime + 1 =
      (s.windows p).vruntime + 1
    rw [tickSink_vruntime env hsink]
  · intro ip' hip'
    rw [hip] at hip'
    injection hip' with hip'
    subst hip'
    rw [heq]
    show (updW _ p _ p).interpreter = _
    rw [updW_eq]

/-- Witness for C1: with windows 0 and 1 runnable at vruntimes 5 and 3 and
`running_countdown = 0`, the scheduler exists as claimed. -/
theorem C1_slice_expiry_selects_min_vruntime_witness :
    sSched.running_countdown = 0 ∧
    (∃ p, p < 4 ∧ runnableB env0 (sSched.windows p) = true ∧
      (∀ j, j < 4 → runnableB env0 (sSched.windows j) = true →
        (sSched.windows p).vruntime ≤ (sSched.windows j).vruntime ∧
        (j < p → (sSched.windows p).vruntime < (sSched.windows j).vruntime)) ∧
      (tick env0 sSched fb0).1.current_process = p ∧
      (tick env0 sSched fb0).1.running_countdown =
        SCHED_LATENCY / runnableCount env0 sSched ∧
      (∀ j, j ≠ p → (tick env0 sSched fb0).1.windows j = sSched.windows j) ∧
      ((tick env0 sSched fb0).1.windows p).vruntime =
        (sSched.windows p).vruntime + 1 ∧
      (∀ ip, (sSched.windows p).interpreter = some ip →
        ((tick env0 sSched fb0).1.windows p).interpreter =
          some (env0.interpTick ip (sSched.windows p) (env0.draw sSched fb0)).1)) :=
  ⟨rfl,
    C1_slice_expiry_selects_min_vruntime env0 sSched fb0
      (fun _ _ _ => rfl) rfl ⟨0, by decide⟩
      (by intro i hi; interval_cases i <;> decide)⟩

/-! ## Claim C2 -/

/-- Claim C2: on every tick, a window whose interpreter is blocked on
input or completed is never the program that gets ticked — neither while a
slice is in progress nor at re-selection — and in fact the whole window
(its vruntime in particular) is left unchanged by the tick. -/
theorem C2_blocked_or_completed_never_ticked {I FS : Type} (env : Env I FS)
    (s : SwimState I FS) (fb : FB) (i : Nat) (ip : I)
    (hip : (s.windows i).interpreter = some ip)
    (hbc : env.blockedOnInput ip = true ∨ env.completed ip = true) :
    (tick env s fb).1.windows i = s.windows i ∧
    ((tick env s fb).1.windows i).vruntime = (s.windows i).vruntime := by
  have hnr : runnableB env (s.windows i) = false := by
    unfold runnableB
    rw [hip]
    cases hstw : (s.windows i).state <;> rcases hbc with hb | hb <;> simp [hb]
  have main : (tick env s fb).1.windows i = s.windows i := by
    unfold tick
    dsimp only
    by_cases hcd : s.running_countdown > 0
    · rw [if_pos hcd]
      dsimp only
      by_cases hrc : runnableB env (s.windows s.current_process)
      · rw [if_pos hrc]
        have hpi : i ≠ s.current_process := by
          intro he
          rw [← he, hnr] at hrc
          cases hrc
        by_cases hc4 : s.current_process ≠ 4
        · rw [if_pos hc4]
          try dsimp only
          cases hipc : (s.windows s.current_process).interpreter
          · rfl
          · show updW _ s.current_process _ i = s.windows i
            rw [updW_ne _ _ _ _ hpi]
        · rw [if_neg hc4]
          try rfl
      · rw [if_neg hrc]
        rw [if_neg (fun h => h rfl : ¬ ((4 : Nat) ≠ 4))]
        try rfl
    · rw [if_neg hcd]
      try dsimp only
      rcases minVruntime_choice_runnable env s with h4 | ⟨hlt4, hrun⟩
      · rw [h4]
        rw [if_neg (fun h => h rfl : ¬ ((4 : Nat) ≠ 4))]
        try dsimp only
        try rw [if_neg (fun h => h rfl : ¬ ((4 : Nat) ≠ 4))]
        try rfl
      · have hq4 : (minVruntime env s).2.1 ≠ 4 := by omega
        rw [if_pos hq4]
        try dsimp only
        try rw [if_pos hq4]
        have hpi : i ≠ (minVruntime env s).2.1 := by
          intro he
          rw [← he, hnr] at hrun
          cases hrun
        cases hipc : (s.windows ((minVruntime env s).2.1)).interpreter
        · rfl
        · show updW _ ((minVruntime env s).2.1) _ i = s.windows i
          rw [updW_ne _ _ _ _ hpi]
  exact ⟨main, by rw [main]⟩

/-- Witness for C2: window 0 of `sBlocked` is Running but blocked on
input; a tick leaves it untouched. -/
theorem C2_blocked_or_completed_never_ticked_witness :
    (sBlocked.windows 0).interpreter = some (true, false) ∧
    (tick env0 sBlocked fb0).1.windows 0 = sBlocked.windows 0 ∧
    ((tick env0 sBlocked fb0).1.windows 0).vruntime = (sBlocked.windows 0).vruntime :=
  ⟨rfl,
    (C2_blocked_or_completed_never_ticked env0 sBlocked fb0 0 (true, false) rfl
      (Or.inl rfl)).1,
    (C2_blocked_or_completed_never_ticked env0 sBlocked fb0 0 (true, false) rfl
      (Or.inl rfl)).2⟩

/-! ## Input-router lemmas -/

lemma setWindow_get_eq {I FS : Type} (s : SwimState I FS) (i : Nat) (w : Window I) :
    (setWindow s i w).windows i = w := updW_eq _ _ _

lemma setWindow_get_ne {I FS : Type} (s : SwimState I FS) (i : Nat) (w : Window I)
    (j : Nat) (h : j ≠ i) : (setWindow s i w).windows j = s.windows j :=
  updW_ne _ _ _ _ h

lemma updW_updW {I : Type} (ws : Nat → Window I) (i : Nat) (w1 w2 : Window I) :
    updW (updW ws i w1) i w2 = updW ws i w2 := by
  funext j
  unfold updW
  by_cases h : j = i <;> simp [h]

/-- Unfolding of `handle_unicode` on Enter in a Running window that is
taking input, when `provide_input` succeeds. -/
lemma handle_enter_ok {I FS : Type} (env : Env I FS) (s : SwimState I FS)
    (fb : FB) (ip : I)
    (hst : (s.windows s.focused_editor).state = WindowState.running)
    (hti : (s.windows s.focused_editor).taking_input = true)
    (hip : (s.windows s.focused_editor).interpreter = some ip)
    (hok : (env.provideInput ip (s.windows s.focused_editor).input_buffer).2 = none) :
    handle_unicode env s fb '\n' =
      some (setWindow s s.focused_editor
        { s.windows s.focused_editor with
          vruntime := (minVruntime env s).1
          interpreter_print_loc := (s.windows s.focused_editor).interpreter_print_loc + 1
          taking_input := false
          interpreter :=
            some (env.provideInput ip (s.windows s.focused_editor).input_buffer).1 },
        fb) := by
  unfold handle_unicode
  simp only [hst, hip, hti, eq_self_iff_true, if_true]
  simp only [setWindow, updW_eq, updW_updW]
  rw [hok]
  dsimp only
  simp only [setWindow, updW_eq, updW_updW]
  try rfl

/-- Unfolding of `handle_unicode` on `'r'` in a Listing window. -/
lemma handle_r_launch {I FS : Type} (env : Env I FS) (s : SwimState I FS)
    (fb : FB)
    (hst : (s.windows s.focused_editor).state = WindowState.listing) :
    handle_unicode env s fb 'r' =
      (if (launchOps env s.filesystem
            { s.windows s.focused_editor with
              vruntime := (minVruntime env s).1
              state := WindowState.running }).2.2 then
        some (setWindow
          { setWindow s s.focused_editor
              (launchOps env s.filesystem
                { s.windows s.focused_editor with
                  vruntime := (minVruntime env s).1
                  state := WindowState.running }).1 with
            filesystem :=
              (launchOps env s.filesystem
                { s.windows s.focused_editor with
                  vruntime := (minVruntime env s).1
                  state := WindowState.running }).2.1 }
          s.focused_editor
          (Window.print
            (launchOps env s.filesystem
              { s.windows s.focused_editor with
                vruntime := (minVruntime env s).1
                state := WindowState.running }).1
            ((s.windows s.focused_editor).clear_window fb) fsErrorMsg).1,
          (Window.print
            (launchOps env s.filesystem
              { s.windows s.focused_editor with
                vruntime := (minVruntime env s).1
                state := WindowState.running }).1
            ((s.windows s.focused_editor).clear_window fb) fsErrorMsg).2)
      else
        some ({ setWindow s s.focused_editor
            (launchOps env s.filesystem
              { s.windows s.focused_editor with
                vruntime := (minVruntime env s).1
                state := WindowState.running }).1 with
          filesystem :=
            (launchOps env s.filesystem
              { s.windows s.focused_editor with
                vruntime := (minVruntime env s).1
                state := WindowState.running }).2.1 },
          (s.windows s.focused_editor).clear_window fb)) := by
  unfold handle_unicode
  simp only [hst, eq_self_iff_true, if_true]
  simp only [setWindow, updW_eq, updW_updW]

/-- `handle_unicode` on `'e'` in a Listing window does nothing: the source
has no `'e'` arm (`_ => ()`). -/
lemma handle_e_nothing {I FS : Type} (env : Env I FS) (s : SwimState I FS)
    (fb : FB)
    (hst : (s.windows s.focused_editor).state = WindowState.listing) :
    handle_unicode env s fb 'e' = some (s, fb) := by
  unfold handle_unicode
  simp only [hst]
  rw [if_neg (by decide : ¬ ('e' : Char) = 'r')]
  try rfl

/-- The launch closure only installs an interpreter and a filename; the
window's vruntime and state are untouched. -/
lemma launchOps_keeps {I FS : Type} (env : Env I FS) (fs : FS) (w : Window I) :
    (launchOps env fs w).1.vruntime = w.vruntime ∧
    (launchOps env fs w).1.state = w.state := by
  unfold launchOps Window.run_program
  split
  · exact ⟨rfl, rfl⟩
  · try dsimp only
    split
    · exact ⟨rfl, rfl⟩
    · try dsimp only
      split
      · exact ⟨rfl, rfl⟩
      · try dsimp only
        split <;> exact ⟨rfl, rfl⟩

/-- The output sink only moves the output row (and writes the
framebuffer); every other window field is untouched. -/
lemma print_keeps {I : Type} :
    ∀ (fuel : Nat) (chars : List Char), chars.length ≤ fuel →
    ∀ (w : Window I) (fb : FB),
      (Window.print w fb chars).1.vruntime = w.vruntime ∧
      (Window.print w fb chars).1.state = w.state ∧
      (Window.print w fb chars).1.interpreter = w.interpreter ∧
      (Window.print w fb chars).1.taking_input = w.taking_input := by
  intro fuel
  induction fuel with
  | zero =>
    intro chars hch w fb
    have hnil : chars = [] := List.eq_nil_of_length_eq_zero (Nat.le_zero.mp hch)
    subst hnil
    rw [Window.print]
    dsimp only
    rw [dif_neg (by decide : ¬ (([] : List Char).length > WIN_WIDTH - 2))]
    rw [if_neg (by decide : ¬ (([] : List Char).length ≠ 0))]
    split <;> exact ⟨rfl, rfl, rfl, rfl⟩
  | succ n ih =>
    intro chars hch w fb
    rw [Window.print]
    dsimp only
    by_cases hlen : chars.length > WIN_WIDTH - 2
    · rw [dif_pos hlen]
      have hd : (chars.drop (WIN_WIDTH - 2)).length ≤ n := by
        simp only [List.length_drop]
        have hw : WIN_WIDTH = 33 := rfl
        omega
      split
      · refine ⟨?_, ?_, ?_, ?_⟩
        · exact (ih _ hd _ _).1
        · exact (ih _ hd _ _).2.1
        · exact (ih _ hd _ _).2.2.1
        · exact (ih _ hd _ _).2.2.2
      · refine ⟨?_, ?_, ?_, ?_⟩
        · exact (ih _ hd _ _).1
        · exact (ih _ hd _ _).2.1
        · exact (ih _ hd _ _).2.2.1
        · exact (ih _ hd _ _).2.2.2
    · rw [dif_neg hlen]
      by_cases h0 : chars.length ≠ 0
      · rw [if_pos h0]
        split <;> exact ⟨rfl, rfl, rfl, rfl⟩
      · rw [if_neg h0]
        split <;> exact ⟨rfl, rfl, rfl, rfl⟩

lemma runnableCount_zero_iff {I FS : Type} (env : Env I FS) (s : SwimState I FS) :
    runnableCount env s = 0 ↔ ∀ i, i < 4 → runnableB env (s.windows i) = false := by
  unfold runnableCount
  rw [List.length_eq_zero]
  rw [List.filter_eq_nil_iff]
  constructor
  · intro h i hi
    have := h i (List.mem_range.mpr hi)
    simpa using this
  · intro h i hi
    have := h i (List.mem_range.mp hi)
    simp [this]

/-- The first component of `min_vruntime` is the minimum vruntime among
runnable programs, and zero when none is runnable. -/
lemma minVruntime_val {I FS : Type} (env : Env I FS) (s : SwimState I FS)
    (hv : ∀ i, i < 4 → (s.windows i).vruntime < USIZE_MAX) :
    (runnableCount env s = 0 → (minVruntime env s).1 = 0) ∧
    (runnableCount env s ≠ 0 →
      ∃ j, j < 4 ∧ runnableB env (s.windows j) = true ∧
        (minVruntime env s).1 = (s.windows j).vruntime ∧
        ∀ k, k < 4 → runnableB env (s.windows k) = true →
          (minVruntime env s).1 ≤ (s.windows k).vruntime) := by
  constructor
  · intro hz
    have hall := (runnableCount_zero_iff env s).mp hz
    rw [minVruntime_none env s hall]
  · intro hnz
    have hex : ∃ i, i < 4 ∧ runnableB env (s.windows i) = true := by
      by_contra hno
      push_neg at hno
      have : ∀ i, i < 4 → runnableB env (s.windows i) = false := by
        intro i hi
        have := hno i hi
        exact Bool.eq_false_iff.mpr (fun he => this he)
      exact hnz ((runnableCount_zero_iff env s).mpr this)
    obtain ⟨p, hp4, hrp, _, hmv, _, hminl⟩ := minVruntime_select env s hex hv
    refine ⟨p, hp4, hrp, hmv, ?_⟩
    intro k hk4 hrk
    rw [hmv]
    exact (hminl k hk4 hrk).1

/-! ## Claim C3 -/

/-- Claim C3: when Enter is pressed in a Running window with
`taking_input` true (and `provide_input` succeeds), the window's vruntime
is set to the minimum vruntime among the currently runnable programs
(zero if none is runnable), `provide_input` is called with the input
buffer, `interpreter_print_loc` is incremented, and `taking_input` is
cleared. Other windows are untouched. (Hypothesis: no vruntime has
reached the `usize::MAX` sentinel.) -/
theorem C3_enter_resets_vruntime_and_unblocks {I FS : Type} (env : Env I FS)
    (s : SwimState I FS) (fb : FB) (ip : I)
    (hst : (s.windows s.focused_editor).state = WindowState.running)
    (hti : (s.windows s.focused_editor).taking_input = true)
    (hip : (s.windows s.focused_editor).interpreter = some ip)
    (hok : (env.provideInput ip (s.windows s.focused_editor).input_buffer).2 = none)
    (hv : ∀ i, i < 4 → (s.windows i).vruntime < USIZE_MAX) :
    ∃ s', handle_unicode env s fb '\n' = some (s', fb) ∧
      (s'.windows s.focused_editor).vruntime = (minVruntime env s).1 ∧
      (s'.windows s.focused_editor).interpreter =
        some (env.provideInput ip (s.windows s.focused_editor).input_buffer).1 ∧
      (s'.windows s.focused_editor).interpreter_print_loc =
        (s.windows s.focused_editor).interpreter_print_loc + 1 ∧
      (s'.windows s.focused_editor).taking_input = false ∧
      (∀ j, j ≠ s.focused_editor → s'.windows j = s.windows j) ∧
      (runnableCount env s = 0 → (minVruntime env s).1 = 0) ∧
      (runnableCount env s ≠ 0 →
        ∃ j, j < 4 ∧ runnableB env (s.windows j) = true ∧
          (minVruntime env s).1 = (s.windows j).vruntime ∧
          ∀ k, k < 4 → runnableB env (s.windows k) = true →
            (minVruntime env s).1 ≤ (s.windows k).vruntime) := by
  refine ⟨_, handle_enter_ok env s fb ip hst hti hip hok, ?_, ?_, ?_, ?_, ?_,
    (minVruntime_val env s hv).1, (minVruntime_val env s hv).2⟩
  · rw [setWindow_get_eq]
  · rw [setWindow_get_eq]
  · rw [setWindow_get_eq]
  · rw [setWindow_get_eq]
  · intro j hj
    rw [setWindow_get_ne _ _ _ _ hj]

/-- Witness for C3 at `sBlocked` (window 0 Running, blocked, taking
input). -/
theorem C3_enter_resets_vruntime_and_unblocks_witness :
    ((sBlocked.windows sBlocked.focused_editor).state = WindowState.running ∧
      (sBlocked.windows sBlocked.focused_editor).taking_input = true) ∧
    (∃ s', handle_unicode env0 sBlocked fb0 '\n' = some (s', fb0) ∧
      (s'.windows sBlocked.focused_editor).vruntime = (minVruntime env0 sBlocked).1 ∧
      (s'.windows sBlocked.focused_editor).interpreter =
        some (env0.provideInput (true, false)
          (sBlocked.windows sBlocked.focused_editor).input_buffer).1 ∧
      (s'.windows sBlocked.focused_editor).interpreter_print_loc =
        (sBlocked.windows sBlocked.focused_editor).interpreter_print_loc + 1 ∧
      (s'.windows sBlocked.focused_editor).taking_input = false ∧
      (∀ j, j ≠ sBlocked.focused_editor → s'.windows j = sBlocked.windows j) ∧
      (runnableCount env0 sBlocked = 0 → (minVruntime env0 sBlocked).1 = 0) ∧
      (runnableCount env0 sBlocked ≠ 0 →
        ∃ j, j < 4 ∧ runnableB env0 (sBlocked.windows j) = true ∧
          (minVruntime env0 sBlocked).1 = (sBlocked.windows j).vruntime ∧
          ∀ k, k < 4 → runnableB env0 (sBlocked.windows k) = true →
            (minVruntime env0 sBlocked).1 ≤ (sBlocked.windows k).vruntime)) :=
  ⟨⟨rfl, rfl⟩,
    C3_enter_resets_vruntime_and_unblocks env0 sBlocked fb0 (true, false)
      rfl rfl rfl rfl (by intro i hi; interval_cases i <;> decide)⟩

/-! ## Claim C10 -/

/-- Claim C10: when a program is launched with `'r'` from a Listing
window, the window's vruntime is set to the minimum vruntime among the
programs runnable at that moment (zero if none), before the window enters
the Running state — the same fairness seeding used after input. The
minimum is computed while the launching window is still Listing, and the
seeded vruntime survives the launch whether or not the filesystem
operations succeed. -/
theorem C10_launch_seeds_vruntime {I FS : Type} (env : Env I FS)
    (s : SwimState I FS) (fb : FB)
    (hst : (s.windows s.focused_editor).state = WindowState.listing)
    (hv : ∀ i, i < 4 → (s.windows i).vruntime < USIZE_MAX) :
    ∃ s' fb', handle_unicode env s fb 'r' = some (s', fb') ∧
      (s'.windows s.focused_editor).vruntime = (minVruntime env s).1 ∧
      (s'.windows s.focused_editor).state = WindowState.running ∧
      (runnableCount env s = 0 → (minVruntime env s).1 = 0) ∧
      (runnableCount env s ≠ 0 →
        ∃ j, j < 4 ∧ runnableB env (s.windows j) = true ∧
          (minVruntime env s).1 = (s.windows j).vruntime ∧
          ∀ k, k < 4 → runnableB env (s.windows k) = true →
            (minVruntime env s).1 ≤ (s.windows k).vruntime) := by
  have heq := handle_r_launch env s fb hst
  by_cases herr : (launchOps env s.filesystem
      { s.windows s.focused_editor with
        vruntime := (minVruntime env s).1
        state := WindowState.running }).2.2
  · rw [if_pos herr] at heq
    refine ⟨_, _, heq, ?_, ?_, (minVruntime_val env s hv).1, (minVruntime_val env s hv).2⟩
    · rw [setWindow_get_eq]
      rw [(print_keeps fsErrorMsg.length fsErrorMsg le_rfl _ _).1]
      rw [(launchOps_keeps env _ _).1]
    · rw [setWindow_get_eq]
      rw [(print_keeps fsErrorMsg.length fsErrorMsg le_rfl _ _).2.1]
      rw [(launchOps_keeps env _ _).2]
  · rw [if_neg herr] at heq
    refine ⟨_, _, heq, ?_, ?_, (minVruntime_val env s hv).1, (minVruntime_val env s hv).2⟩
    · show ((setWindow s s.focused_editor _).windows s.focused_editor).vruntime = _
      rw [setWindow_get_eq]
      rw [(launchOps_keeps env _ _).1]
    · show ((setWindow s s.focused_editor _).windows s.focused_editor).state = _
      rw [setWindow_get_eq]
      rw [(launchOps_keeps env _ _).2]

/-- Witness for C10 at `sListing` with the always-succeeding filesystem. -/
theorem C10_launch_seeds_vruntime_witness :
    (sListing.windows sListing.focused_editor).state = WindowState.listing ∧
    (∃ s' fb', handle_unicode env0 sListing fb0 'r' = some (s', fb') ∧
      (s'.windows sListing.focused_editor).vruntime = (minVruntime env0 sListing).1 ∧
      (s'.windows sListing.focused_editor).state = WindowState.running ∧
      (runnableCount env0 sListing = 0 → (minVruntime env0 sListing).1 = 0) ∧
      (runnableCount env0 sListing ≠ 0 →
        ∃ j, j < 4 ∧ runnableB env0 (sListing.windows j) = true ∧
          (minVruntime env0 sListing).1 = (sListing.windows j).vruntime ∧
          ∀ k, k < 4 → runnableB env0 (sListing.windows k) = true →
            (minVruntime env0 sListing).1 ≤ (sListing.windows k).vruntime)) :=
  ⟨rfl,
    C10_launch_seeds_vruntime env0 sListing fb0 rfl
      (by intro i hi; interval_cases i <;> decide)⟩

/-! ## Claim C5 -/

/-- Counterexample to claim C5 as stated: with a filesystem whose
`list_directory` fails, pressing `'r'` on the focused Listing window 0
leaves the window in the Running state, not in the Listing mode it was
in — the transition to Running happens before the filesystem operations
and the error handler does not undo it. -/
theorem C5_counterexample :
    (sListing.windows 0).state = WindowState.listing ∧
    (handle_unicode envFsFail sListing fb0 'r').map
      (fun r => (r.1.windows 0).state) = some WindowState.running := by
  refine ⟨rfl, ?_⟩
  rw [handle_r_launch envFsFail sListing fb0 rfl]
  rw [if_pos (show (launchOps envFsFail sListing.filesystem
    { sListing.windows sListing.focused_editor with
      vruntime := (minVruntime envFsFail sListing).1
      state := WindowState.running }).2.2 = true by rfl)]
  dsimp only [Option.map]
  have hge : ∀ (s2 : SwimState TI Unit) (w : Window TI),
      (setWindow s2 sListing.focused_editor w).windows 0 = w :=
    fun s2 w => setWindow_get_eq s2 sListing.focused_editor w
  rw [hge]
  rw [(print_keeps fsErrorMsg.length fsErrorMsg le_rfl _ _).2.1]
  rw [(launchOps_keeps envFsFail _ _).2]

/-- Claim C5 (amended): if a filesystem operation fails while the focused
Listing window launches its focused file with `'r'`, the window's output
sink is invoked with exactly the message "filesystem error", and the key
handling completes normally without aborting the desktop; but the window
does not remain in Listing: it entered the Running state before the
filesystem operations and the error handler leaves it there. -/
theorem C5_fs_error_prints_and_window_stays_running {I FS : Type}
    (env : Env I FS) (s : SwimState I FS) (fb : FB)
    (hst : (s.windows s.focused_editor).state = WindowState.listing)
    (herr : (launchOps env s.filesystem
      { s.windows s.focused_editor with
        vruntime := (minVruntime env s).1
        state := WindowState.running }).2.2 = true) :
    ∃ s' fb', handle_unicode env s fb 'r' = some (s', fb') ∧
      s'.windows s.focused_editor =
        (Window.print
          (launchOps env s.filesystem
            { s.windows s.focused_editor with
              vruntime := (minVruntime env s).1
              state := WindowState.running }).1
          ((s.windows s.focused_editor).clear_window fb) fsErrorMsg).1 ∧
      fb' =
        (Window.print
          (launchOps env s.filesystem
            { s.windows s.focused_editor with
              vruntime := (minVruntime env s).1
              state := WindowState.running }).1
          ((s.windows s.focused_editor).clear_window fb) fsErrorMsg).2 ∧
      (s'.windows s.focused_editor).state = WindowState.running := by
  have heq := handle_r_launch env s fb hst
  rw [if_pos herr] at heq
  refine ⟨_, _, heq, ?_, rfl, ?_⟩
  · rw [setWindow_get_eq]
  · rw [setWindow_get_eq]
    rw [(print_keeps fsErrorMsg.length fsErrorMsg le_rfl _ _).2.1]
    rw [(launchOps_keeps env _ _).2]

/-- Witness for the amended C5 at `sListing` with the failing
filesystem. -/
theorem C5_fs_error_prints_and_window_stays_running_witness :
    (sListing.windows sListing.focused_editor).state = WindowState.listing ∧
    (∃ s' fb', handle_unicode envFsFail sListing fb0 'r' = some (s', fb') ∧
      s'.windows sListing.focused_editor =
        (Window.print
          (launchOps envFsFail sListing.filesystem
            { sListing.windows sListing.focused_editor with
              vruntime := (minVruntime envFsFail sListing).1
              state := WindowState.running }).1
          ((sListing.windows sListing.focused_editor).clear_window fb0) fsErrorMsg).1 ∧
      fb' =
        (Window.print
          (launchOps envFsFail sListing.filesystem
            { sListing.windows sListing.focused_editor with
              vruntime := (minVruntime envFsFail sListing).1
              state := WindowState.running }).1
          ((sListing.windows sListing.focused_editor).clear_window fb0) fsErrorMsg).2 ∧
      (s'.windows sListing.focused_editor).state = WindowState.running) :=
  ⟨rfl, C5_fs_error_prints_and_window_stays_running envFsFail sListing fb0 rfl rfl⟩

/-! ## Claim C6 -/

/-- Claim C6 is violated by the code: when the focused window is in
Listing mode and the Unicode key `'e'` is received, the window does not
transition to Editing with a fresh editor — `handle_unicode` has no `'e'`
arm at all and the whole state (window mode and absent editor included)
is returned unchanged. -/
theorem C6_e_in_listing_does_nothing {I FS : Type} (env : Env I FS)
    (s : SwimState I FS) (fb : FB)
    (hst : (s.windows s.focused_editor).state = WindowState.listing) :
    handle_unicode env s fb 'e' = some (s, fb) :=
  handle_e_nothing env s fb hst

/-- Witness for C6 at `sListing`. -/
theorem C6_e_in_listing_does_nothing_witness :
    (sListing.windows sListing.focused_editor).state = WindowState.listing ∧
    handle_unicode env0 sListing fb0 'e' = some (sListing, fb0) :=
  ⟨rfl, C6_e_in_listing_does_nothing env0 sListing fb0 rfl⟩

/-! ## Output-sink framebuffer lemmas -/

lemma plot_at (c : Char) (x y : Nat) (color : ColorCode) (fb : FB) (a b : Nat) :
    plot c x y color fb a b = if a = x ∧ b = y then (c, color) else fb a b := rfl

lemma plotList_at (cs : List Char) :
    ∀ (x y : Nat) (fb : FB) (a b : Nat),
      plotList cs x y fb a b =
        if b = y ∧ x ≤ a ∧ a < x + cs.length then (cs.getD (a - x) nulc, lcCode)
        else fb a b := by
  induction cs with
  | nil =>
    intro x y fb a b
    show fb a b = _
    rw [if_neg (by simp only [List.length_nil]; omega)]
  | cons c cs ih =>
    intro x y fb a b
    show plotList cs (x + 1) y (plot c x y lcCode fb) a b = _
    rw [ih, plot_at]
    simp only [List.length_cons]
    split_ifs with h1 h2 h3 h4 h5
    all_goals try rfl
    all_goals try (exfalso; omega)
    · have hx : a - x = (a - (x + 1)) + 1 := by omega
      rw [hx, List.getD_cons_succ]
    · have hax : a = x := by omega
      subst hax
      rw [Nat.sub_self, List.getD_cons_zero]

lemma copyRowUp_range_at (y : Nat) :
    ∀ (n a0 : Nat) (fb : FB) (a b : Nat),
      copyRowUp y (List.range' a0 n) fb a b =
        if b = y ∧ a0 ≤ a ∧ a < a0 + n then fb a (y + 1) else fb a b := by
  intro n
  induction n with
  | zero =>
    intro a0 fb a b
    show fb a b = _
    rw [if_neg (by omega)]
  | succ m ih =>
    intro a0 fb a b
    rw [List.range'_succ]
    show copyRowUp y (List.range' (a0 + 1) m)
      (plot (peek fb a0 (y + 1)).1 a0 y (peek fb a0 (y + 1)).2 fb) a b = _
    rw [ih]
    have hplot : ∀ (a' b' : Nat),
        plot (peek fb a0 (y + 1)).1 a0 y (peek fb a0 (y + 1)).2 fb a' b' =
          if a' = a0 ∧ b' = y then fb a0 (y + 1) else fb a' b' := by
      intro a' b'
      rw [plot_at]
      by_cases h : a' = a0 ∧ b' = y
      · rw [if_pos h, if_pos h]
        rfl
      · rw [if_neg h, if_neg h]
    simp only [hplot]
    split_ifs with h1 h2 h3 h4 h5
    all_goals try rfl
    all_goals try (exfalso; omega)
    all_goals (congr 2 <;> omega)

lemma blankCols_range_at (y : Nat) :
    ∀ (n a0 : Nat) (fb : FB) (a b : Nat),
      blankCols y (List.range' a0 n) fb a b =
        if b = y ∧ a0 ≤ a ∧ a < a0 + n then (' ', blackCode) else fb a b := by
  intro n
  induction n with
  | zero =>
    intro a0 fb a b
    show fb a b = _
    rw [if_neg (by omega)]
  | succ m ih =>
    intro a0 fb a b
    rw [List.range'_succ]
    show blankCols y (List.range' (a0 + 1) m) (plot ' ' a0 y blackCode fb) a b = _
    rw [ih, plot_at]
    split_ifs with h1 h2 h3 h4 h5
    all_goals try rfl
    all_goals try (exfalso; omega)

/-- Copying every interior row from the row below, top to bottom: reads
are always from the not-yet-written row below. -/
lemma scrollRows_at (wx : Nat) :
    ∀ (n a0 : Nat) (fb : FB) (a b : Nat),
      scrollRows wx (List.range' a0 n) fb a b =
        if (wx + 1 ≤ a ∧ a < wx + 1 + ((WIN_WIDTH + wx) - (wx + 1))) ∧
            a0 ≤ b ∧ b < a0 + n then
          fb a (b + 1)
        else fb a b := by
  intro n
  induction n with
  | zero =>
    intro a0 fb a b
    show fb a b = _
    rw [if_neg (by omega)]
  | succ m ih =>
    intro a0 fb a b
    rw [List.range'_succ]
    show scrollRows wx (List.range' (a0 + 1) m)
      (copyRowUp a0 (List.range' (wx + 1) ((WIN_WIDTH + wx) - (wx + 1))) fb) a b = _
    rw [ih]
    simp only [copyRowUp_range_at]
    split_ifs with h1 h2 h3 h4 h5
    all_goals try rfl
    all_goals try (exfalso; omega)
    all_goals (congr 2 <;> omega)

lemma list_getD_take {α : Type} (l : List α) :
    ∀ (n j : Nat) (d : α), j < n → (l.take n).getD j d = l.getD j d := by
  induction l with
  | nil =>
    intro n j d _
    rw [List.take_nil]
  | cons x xs ih =>
    intro n j d h
    cases n with
    | zero => omega
    | succ m =>
      cases j with
      | zero => rfl
      | succ k =>
        rw [List.take_succ_cons, List.getD_cons_succ, List.getD_cons_succ]
        exact ih m k d (by omega)

/-- One `print` call with the viewport not yet full: the line's first
`len - 1` characters are plotted on the next row and the output row
advances. -/
lemma print_step_noscroll {I : Type} (w : Window I) (fb : FB) (l : List Char)
    (hl1 : l.length ≠ 0) (hl2 : l.length ≤ WIN_WIDTH - 2)
    (hm : w.interpreter_print_loc < 10) :
    (Window.print w fb l).1 =
      { w with interpreter_print_loc := w.interpreter_print_loc + 1 } ∧
    ∀ (a b : Nat), (Window.print w fb l).2 a b =
      if b = w.interpreter_print_loc + w.window_y + 1 ∧
          w.window_x + 1 ≤ a ∧ a < w.window_x + 1 + (l.length - 1) then
        (l.getD (a - (w.window_x + 1)) nulc, lcCode)
      else fb a b := by
  have hW : WIN_WIDTH = 33 := rfl
  rw [Window.print]
  dsimp only
  rw [if_neg (by omega : ¬ w.interpreter_print_loc = 10)]
  rw [dif_neg (by omega : ¬ l.length > WIN_WIDTH - 2)]
  rw [if_pos hl1]
  refine ⟨rfl, ?_⟩
  intro a b
  dsimp only
  rw [plotList_at]
  simp only [List.length_take]
  rw [Nat.min_eq_left (by omega : l.length - 1 ≤ l.length)]
  by_cases h : b = w.interpreter_print_loc + w.window_y + 1 ∧
      w.window_x + 1 ≤ a ∧ a < w.window_x + 1 + (l.length - 1)
  · rw [if_pos h, if_pos h]
    have := list_getD_take l (l.length - 1) (a - (w.window_x + 1)) nulc (by omega)
    rw [this]
  · rw [if_neg h, if_neg h]

/-- One `print` call with the viewport full (`interpreter_print_loc = 10`):
scroll the interior up one row, blank the bottom row, plot the line there,
and leave the output row at 10. -/
lemma print_step_scroll {I : Type} (w : Window I) (fb : FB) (l : List Char)
    (hl1 : l.length ≠ 0) (hl2 : l.length ≤ WIN_WIDTH - 2)
    (hm : w.interpreter_print_loc = 10) :
    (Window.print w fb l).1 = { w with interpreter_print_loc := 10 } ∧
    ∀ (a b : Nat), (Window.print w fb l).2 a b =
      if b = w.window_y + 10 ∧ w.window_x + 1 ≤ a ∧
          a < w.window_x + 1 + (l.length - 1) then
        (l.getD (a - (w.window_x + 1)) nulc, lcCode)
      else if b = w.window_y + 10 ∧ w.window_x + 1 ≤ a ∧ a < w.window_x + 32 then
        (' ', blackCode)
      else if (w.window_x + 1 ≤ a ∧ a < w.window_x + 33) ∧
          w.window_y + 1 ≤ b ∧ b < w.window_y + 10 then
        fb a (b + 1)
      else fb a b := by
  have hW : WIN_WIDTH = 33 := rfl
  rw [Window.print]
  dsimp only
  rw [if_pos hm, hm]
  dsimp only
  rw [dif_neg (by omega : ¬ l.length > WIN_WIDTH - 2)]
  rw [if_pos hl1]
  constructor
  · rfl
  · intro a b
    dsimp only
    rw [plotList_at]
    simp only [List.length_take]
    rw [Nat.min_eq_left (by omega : l.length - 1 ≤ l.length)]
    rw [blankCols_range_at, scrollRows_at]
    split_ifs with h1 h2 h3 h4 h5 h6 h7 h8 h9
    all_goals try rfl
    all_goals try (exfalso; omega)
    all_goals try (congr 2 <;> omega)
    all_goals
      (have htake := list_getD_take l (l.length - 1) (a - (w.window_x + 1)) nulc (by omega)
       rw [htake])

lemma list_getD_concat_length {α : Type} (L : List α) (x d : α) :
    (L ++ [x]).getD L.length d = x := by
  induction L with
  | nil => rfl
  | cons a L ih =>
    show ((a :: (L ++ [x])).getD (L.length + 1) d) = x
    rw [List.getD_cons_succ]
    exact ih

lemma list_getD_append_left {α : Type} (L M : List α) :
    ∀ (j : Nat) (d : α), j < L.length → (L ++ M).getD j d = L.getD j d := by
  induction L with
  | nil => intro j d h; simp at h
  | cons a L ih =>
    intro j d h
    cases j with
    | zero => rfl
    | succ k =>
      show ((a :: (L ++ M)).getD (k + 1) d) = _
      rw [List.getD_cons_succ, List.getD_cons_succ]
      exact ih k d (by simpa using h)

lemma list_getD_drop {α : Type} :
    ∀ (n : Nat) (L : List α) (j : Nat) (d : α),
      (L.drop n).getD j d = L.getD (n + j) d := by
  intro n
  induction n with
  | zero =>
    intro L j d
    rw [List.drop_zero, Nat.zero_add]
  | succ m ih =>
    intro L j d
    cases L with
    | nil => rfl
    | cons a L =>
      show (L.drop m).getD j d = ((a :: L).getD (m + 1 + j) d)
      rw [show m + 1 + j = (m + j) + 1 from by omega, List.getD_cons_succ]
      exact ih L j d

/-- Interior characterization of a whole sequence of `print` calls on a
fresh window: the output row is `min k 10`, nothing outside the interior
is touched, and interior row `r` displays line `k - min k 10 + r` of the
sequence (1-based), i.e. the last `min k 10` lines in order. -/
lemma printSeq_rows {I : Type} (w : Window I) (fb : FB)
    (hw : w.interpreter_print_loc = 0)
    (hfb : ∀ x y, w.window_x + 1 ≤ x → x ≤ w.window_x + 32 →
      w.window_y + 1 ≤ y → y ≤ w.window_y + 10 → fb x y = (' ', blackCode)) :
    ∀ (L : List (List Char)), (∀ l ∈ L, l.length ≠ 0 ∧ l.length ≤ WIN_WIDTH - 2) →
      (printSeq w fb L).1 = { w with interpreter_print_loc := min L.length 10 } ∧
      (∀ a b, ¬(w.window_x + 1 ≤ a ∧ a ≤ w.window_x + 32 ∧
          w.window_y + 1 ≤ b ∧ b ≤ w.window_y + 10) →
        (printSeq w fb L).2 a b = fb a b) ∧
      (∀ r i, 1 ≤ r → r ≤ 10 → 1 ≤ i → i ≤ 32 →
        (printSeq w fb L).2 (w.window_x + i) (w.window_y + r) =
          if r ≤ min L.length 10 then
            lineCell (L.getD (L.length - min L.length 10 + r - 1) []) i
          else (' ', blackCode)) := by
  have hW : WIN_WIDTH = 33 := rfl
  intro L
  induction L using List.reverseRecOn with
  | nil =>
    intro _
    refine ⟨?_, fun a b _ => rfl, ?_⟩
    · show w = _
      have h0 : min ([] : List (List Char)).length 10 = 0 := rfl
      rw [h0, ← hw]
    · intro r i hr1 hr10 hi1 hi32
      show fb _ _ = _
      rw [if_neg (by simp only [List.length_nil]; omega)]
      exact hfb _ _ (by omega) (by omega) (by omega) (by omega)
  | append_singleton L l ih =>
    intro hlen
    have hL : ∀ l' ∈ L, l'.length ≠ 0 ∧ l'.length ≤ WIN_WIDTH - 2 :=
      fun l' h => hlen l' (List.mem_append_left _ h)
    have hl : l.length ≠ 0 ∧ l.length ≤ WIN_WIDTH - 2 :=
      hlen l (List.mem_append_right _ (List.mem_singleton.mpr rfl))
    obtain ⟨ih1, ih2, ih3⟩ := ih hL
    have hsnoc : printSeq w fb (L ++ [l]) =
        Window.print (printSeq w fb L).1 (printSeq w fb L).2 l := by
      unfold printSeq
      rw [List.foldl_append]
      rfl
    have hklen : (L ++ [l]).length = L.length + 1 := by
      simp
    by_cases hm : L.length < 10
    · -- no scroll: the viewport is not yet full
      have hmin : min L.length 10 = L.length := by omega
      obtain ⟨hs1, hs2⟩ := print_step_noscroll
        (printSeq w fb L).1 (printSeq w fb L).2 l hl.1 hl.2
        (by rw [ih1]; show min L.length 10 < 10; omega)
      rw [ih1] at hs1 hs2
      dsimp only at hs1 hs2
      rw [hmin] at hs1 hs2
      refine ⟨?_, ?_, ?_⟩
      · rw [hsnoc, ih1, hmin, hs1, hklen]
        congr 1
        omega
      · intro a b hout
        rw [hsnoc, ih1, hmin, hs2 a b, if_neg (by omega)]
        exact ih2 a b hout
      · intro r i hr1 hr10 hi1 hi32
        rw [hsnoc, ih1, hmin, hs2 _ _, hklen]
        have hmin' : min (L.length + 1) 10 = L.length + 1 := by omega
        rw [hmin']
        by_cases hcond : w.window_y + r = L.length + w.window_y + 1 ∧
            w.window_x + 1 ≤ w.window_x + i ∧
            w.window_x + i < w.window_x + 1 + (l.length - 1)
        · rw [if_pos hcond]
          have hr : r = L.length + 1 := by omega
          rw [if_pos (by omega)]
          have hidx : L.length + 1 - (L.length + 1) + r - 1 = L.length := by omega
          rw [hidx, list_getD_concat_length]
          unfold lineCell
          rw [if_pos ⟨by omega, by omega⟩]
          have hsub : w.window_x + i - (w.window_x + 1) = i - 1 := by omega
          rw [hsub]
        · rw [if_neg hcond]
          rw [ih3 r i hr1 hr10 hi1 hi32, hmin]
          by_cases hrk : r ≤ L.length
          · rw [if_pos hrk, if_pos (by omega)]
            have h1 : L.length - L.length + r - 1 = r - 1 := by omega
            have h2 : L.length + 1 - (L.length + 1) + r - 1 = r - 1 := by omega
            rw [h1, h2, list_getD_append_left L [l] (r - 1) [] (by omega)]
          · by_cases hrk1 : r = L.length + 1
            · -- the row of the new line, beyond the plotted characters
              rw [if_neg (by omega), if_pos (by omega)]
              have h2 : L.length + 1 - (L.length + 1) + r - 1 = L.length := by omega
              rw [h2, list_getD_concat_length]
              unfold lineCell
              rw [if_neg (by omega)]
            · rw [if_neg (by omega), if_neg (by omega)]
    · -- the viewport is full: the print scrolls
      have hmin : min L.length 10 = 10 := by omega
      obtain ⟨hs1, hs2⟩ := print_step_scroll
        (printSeq w fb L).1 (printSeq w fb L).2 l hl.1 hl.2
        (by rw [ih1]; show min L.length 10 = 10; omega)
      rw [ih1] at hs1 hs2
      dsimp only at hs1 hs2
      refine ⟨?_, ?_, ?_⟩
      · rw [hsnoc, ih1, hs1, hklen]
        congr 1
        omega
      · intro a b hout
        rw [hsnoc, ih1, hs2 a b, if_neg (by omega), if_neg (by omega), if_neg (by omega)]
        exact ih2 a b hout
      · intro r i hr1 hr10 hi1 hi32
        rw [hsnoc, ih1, hs2 _ _, hklen]
        have hmin' : min (L.length + 1) 10 = 10 := by omega
        rw [hmin']
        by_cases hr10' : r = 10
        · subst hr10'
          by_cases hplot : w.window_x + i < w.window_x + 1 + (l.length - 1)
          · rw [if_pos ⟨by omega, by omega, hplot⟩, if_pos (by omega)]
            have hidx : L.length + 1 - 10 + 10 - 1 = L.length := by omega
            rw [hidx, list_getD_concat_length]
            unfold lineCell
            rw [if_pos ⟨by omega, by omega⟩]
            have hsub : w.window_x + i - (w.window_x + 1) = i - 1 := by omega
            rw [hsub]
          · by_cases hib : w.window_x + i < w.window_x + 32
            · rw [if_neg (by omega), if_pos ⟨by omega, by omega, hib⟩, if_pos (by omega)]
              have hidx : L.length + 1 - 10 + 10 - 1 = L.length := by omega
              rw [hidx, list_getD_concat_length]
              unfold lineCell
              rw [if_neg (by omega)]
            · -- the rightmost interior column: untouched by the blank,
              -- but already blank from the previous contents
              have hi32' : i = 32 := by omega
              rw [if_neg (by omega), if_neg (by omega), if_neg (by omega)]
              rw [ih3 10 i (by omega) (by omega) (by omega) (by omega), hmin]
              rw [if_pos (by omega), if_pos (by omega)]
              have hidx : L.length - 10 + 10 - 1 = L.length - 1 := by omega
              have hidx2 : L.length + 1 - 10 + 10 - 1 = L.length := by omega
              rw [hidx, hidx2, list_getD_concat_length]
              have hmem : L.getD (L.length - 1) [] ∈ L := by
                have hlt : L.length - 1 < L.length := by omega
                rw [List.getD_eq_getElem L [] hlt]
                exact List.getElem_mem hlt
              have hlenL := hL _ hmem
              unfold lineCell
              rw [if_neg (by omega), if_neg (by omega)]
          -- end r = 10
        · -- r ≤ 9: the scrolled region, showing the old row r+1
          rw [if_neg (by omega), if_neg (by omega), if_pos ⟨⟨by omega, by omega⟩, by omega, by omega⟩]
          have hcoord : w.window_y + r + 1 = w.window_y + (r + 1) := by omega
          rw [hcoord]
          rw [ih3 (r + 1) i (by omega) (by omega) (by omega) (by omega), hmin]
          rw [if_pos (by omega), if_pos (by omega)]
          have hidx : L.length - 10 + (r + 1) - 1 = L.length - 10 + r := by omega
          have hidx2 : L.length + 1 - 10 + r - 1 = L.length - 10 + r := by omega
          rw [hidx, hidx2, list_getD_append_left L [l] (L.length - 10 + r) [] (by omega)]

/-! ## Claim C4 -/

/-- Counterexample to claim C4 as stated: on a fresh Running window over a
blank interior, printing the non-empty one-character line "a" leaves the
cell at `(window_x+1, window_y+min(1,10))` blank — the sink plots only
`chars[0..len-1]`, dropping the last character, so a length-1 line plots
nothing; and printing an empty chunk still increments
`interpreter_print_loc`, refuting "incremented ... only after a non-empty
chunk". -/
theorem C4_counterexample :
    ((Window.print wSink fb0 ['a']).2 (wSink.window_x + 1) (wSink.window_y + 1)).1 ≠ 'a' ∧
    (Window.print wSink fb0 []).1.interpreter_print_loc = 1 := by
  constructor
  · rw [Window.print]
    decide
  · rw [Window.print]
    decide

/-- Claim C4 (amended): for every sequence of `k ≥ 1` `print(line)` calls,
each line of length between 2 and `WIN_WIDTH - 2`, starting from a fresh
Running window (output row 0, blank interior): the output row afterwards
is `min k 10`; the framebuffer cell at `(window_x+1, window_y+min(k,10))`
contains the first character of the k-th line; and lines older than the
10th are no longer visible — the entire window interior equals the
interior produced by printing only the last 10 lines.
(`interpreter_print_loc` is in fact incremented by every call, also for an
empty chunk, and a line of length 1 loses its only character — see the
counterexample; the amendment requires length ≥ 2.) -/
theorem C4_print_sequence_display {I : Type} (w : Window I) (fb : FB)
    (L : List (List Char))
    (hw : w.interpreter_print_loc = 0)
    (hfb : ∀ x y, w.window_x + 1 ≤ x → x ≤ w.window_x + 32 →
      w.window_y + 1 ≤ y → y ≤ w.window_y + 10 → fb x y = (' ', blackCode))
    (hlen : ∀ l ∈ L, 2 ≤ l.length ∧ l.length ≤ WIN_WIDTH - 2)
    (hk : L.length ≠ 0) :
    (printSeq w fb L).1 = { w with interpreter_print_loc := min L.length 10 } ∧
    (printSeq w fb L).2 (w.window_x + 1) (w.window_y + min L.length 10) =
      ((L.getD (L.length - 1) []).getD 0 nulc, lcCode) ∧
    (∀ x y, w.window_x + 1 ≤ x → x ≤ w.window_x + 32 →
      w.window_y + 1 ≤ y → y ≤ w.window_y + 10 →
      (printSeq w fb L).2 x y = (printSeq w fb (L.drop (L.length - 10))).2 x y) := by
  have hW : WIN_WIDTH = 33 := rfl
  have hlen' : ∀ l ∈ L, l.length ≠ 0 ∧ l.length ≤ WIN_WIDTH - 2 := by
    intro l h
    have := hlen l h
    constructor
    · omega
    · omega
  obtain ⟨h1, h2, h3⟩ := printSeq_rows w fb hw hfb L hlen'
  refine ⟨h1, ?_, ?_⟩
  · have hm1 : 1 ≤ min L.length 10 := by omega
    have hcell := h3 (min L.length 10) 1 hm1 (by omega) le_rfl (by omega)
    rw [hcell, if_pos le_rfl]
    have hidx : L.length - min L.length 10 + min L.length 10 - 1 = L.length - 1 := by
      omega
    rw [hidx]
    have hlt : L.length - 1 < L.length := by omega
    have hmem : L.getD (L.length - 1) [] ∈ L := by
      rw [List.getD_eq_getElem L [] hlt]
      exact List.getElem_mem hlt
    have hll := hlen _ hmem
    unfold lineCell
    rw [if_pos ⟨le_rfl, by omega⟩]
  · intro x y hx1 hx2 hy1 hy2
    by_cases hk10 : L.length ≤ 10
    · have hz : L.length - 10 = 0 := by omega
      rw [hz, List.drop_zero]
    · obtain ⟨h1', h2', h3'⟩ := printSeq_rows w fb hw hfb (L.drop (L.length - 10))
        (fun l h => hlen' l (List.mem_of_mem_drop h))
      obtain ⟨i, hi⟩ : ∃ i, x = w.window_x + i := ⟨x - w.window_x, by omega⟩
      obtain ⟨r, hr⟩ : ∃ r, y = w.window_y + r := ⟨y - w.window_y, by omega⟩
      subst hi
      subst hr
      have hi1 : 1 ≤ i := by omega
      have hi32 : i ≤ 32 := by omega
      have hr1 : 1 ≤ r := by omega
      have hr10 : r ≤ 10 := by omega
      rw [h3 r i hr1 hr10 hi1 hi32, h3' r i hr1 hr10 hi1 hi32]
      have hdlen : (L.drop (L.length - 10)).length = 10 := by
        rw [List.length_drop]
        omega
      rw [hdlen]
      have hminL : min L.length 10 = 10 := by omega
      have hmin10 : min (10 : Nat) 10 = 10 := rfl
      rw [hminL, hmin10]
      rw [if_pos hr10, if_pos hr10]
      have hidx1 : (10 : Nat) - 10 + r - 1 = r - 1 := by omega
      rw [hidx1, list_getD_drop]
      have hidx2 : L.length - 10 + (r - 1) = L.length - 10 + r - 1 := by omega
      rw [hidx2]

/-- Witness for the amended C4: two two-character lines printed on a
fresh running window. -/
theorem C4_print_sequence_display_witness :
    (wSink.interpreter_print_loc = 0 ∧
      ((['h', 'i'] :: [['y', 'o']]).length ≠ 0)) ∧
    (printSeq wSink fb0 [['h', 'i'], ['y', 'o']]).1 =
      { wSink with interpreter_print_loc := min ([['h', 'i'], ['y', 'o']] : List (List Char)).length 10 } ∧
    (printSeq wSink fb0 [['h', 'i'], ['y', 'o']]).2 (wSink.window_x + 1)
        (wSink.window_y + min ([['h', 'i'], ['y', 'o']] : List (List Char)).length 10) =
      ((([['h', 'i'], ['y', 'o']] : List (List Char)).getD
          (([['h', 'i'], ['y', 'o']] : List (List Char)).length - 1) []).getD 0 nulc,
        lcCode) ∧
    (∀ x y, wSink.window_x + 1 ≤ x → x ≤ wSink.window_x + 32 →
      wSink.window_y + 1 ≤ y → y ≤ wSink.window_y + 10 →
      (printSeq wSink fb0 [['h', 'i'], ['y', 'o']]).2 x y =
        (printSeq wSink fb0
          (([['h', 'i'], ['y', 'o']] : List (List Char)).drop
            (([['h', 'i'], ['y', 'o']] : List (List Char)).length - 10))).2 x y) :=
  ⟨⟨rfl, by decide⟩,
    C4_print_sequence_display wSink fb0 [['h', 'i'], ['y', 'o']] rfl
      (fun _ _ _ _ _ _ => rfl) (by decide) (by decide)⟩

end Swim
